import Mathlib

/-!
Shallow embedding of the match-assessment and decision-cache subsystem of
cross-seed (src/decide.ts, together with the result shape from
src/prowlarr.ts).  Pure functions (`compareFileTrees`, `sizeDoesMatch`,
`assessResultHelper`) are translated directly; the stateful engine
(`assessAndSaveResults`, `assessResultCaching`) is translated into explicit
state passing over a `World` record holding the decision cache
(`db.data.decisions`) and the on-disk torrent-file cache.  The external
MetafileFetcher (`parseTorrentFromURL`) is a function parameter
`String → Option Metafile`; `Date.now()` is a `now : Nat` parameter.
The engine's return value is instrumented with the number of fetcher
invocations (`fetchCount`) and whether a full assessment ran
(`reassessed`), which are observable effects the source performs but does
not return.
-/

namespace CrossSeed

/- Batteries seals the rational operations; re-open them locally so
concrete engine runs reduce by `decide`/`rfl`. -/
attribute [local semireducible] Rat.mul Rat.sub Rat.add Rat.inv

/-- The `Decision` enumeration from src/constants.ts, as used by decide.ts. -/
inductive Decision where
  | MATCH
  | SIZE_MISMATCH
  | NO_DOWNLOAD_LINK
  | DOWNLOAD_FAILED
  | INFO_HASH_ALREADY_EXISTS
  | FILE_TREE_MISMATCH
deriving DecidableEq, Repr

/-- One element of a torrent file tree: `{path, length}`. -/
structure FileEntry where
  path : String
  length : Nat
deriving DecidableEq, Repr

/-- Parsed torrent metainfo (parse-torrent's `Metafile`): the fields decide.ts reads. -/
structure Metafile where
  infoHash : String
  files : List FileEntry
deriving DecidableEq, Repr

/-- A locally held torrent (`Searchee`): the fields decide.ts reads
(`name`, `files`, `length`). -/
structure Searchee where
  name : String
  files : List FileEntry
  length : ℚ
deriving DecidableEq, Repr

/-- The fields of `ProwlarrResult` read by decide.ts.  `Link` is `none`
when the result has no download link (the source's falsy check `!Link`). -/
structure ProwlarrResult where
  Guid : String
  Title : String
  IndexerId : Nat
  Link : Option String
  Size : ℚ
deriving DecidableEq, Repr

/-- `ResultAssessment` from decide.ts: `{decision, info?}`. -/
structure ResultAssessment where
  decision : Decision
  info : Option Metafile := none
deriving DecidableEq, Repr

/-- A `DecisionEntry` of the persistent decision cache (db.ts):
`{decision, firstSeen, lastSeen, infoHash?}`. -/
structure DecisionEntry where
  decision : Decision
  firstSeen : Nat
  lastSeen : Nat
  infoHash : Option String := none
deriving DecidableEq, Repr

/-- Association-list lookup, modelling JS object property read `obj[k]`. -/
def lookupA {β : Type} : List (String × β) → String → Option β
  | [], _ => none
  | (k0, v0) :: t, k => if k0 = k then some v0 else lookupA t k

/-- Association-list update, modelling JS object property write
`obj[k] = v` (replaces in place, or appends a new key). -/
def insertA {β : Type} : List (String × β) → String → β → List (String × β)
  | [], k, v => [(k, v)]
  | (k0, v0) :: t, k, v =>
      if k0 = k then (k, v) :: t else (k0, v0) :: insertA t k v

/-- One partition of the decision cache: guid → DecisionEntry. -/
abbrev Partition := List (String × DecisionEntry)

/-- The decision cache `db.data.decisions`: searchee name → partition. -/
abbrev Decisions := List (String × Partition)

/-- The mutable state the engine touches: the decision cache and the
on-disk torrent-file cache directory (infoHash → stored metafile). -/
structure World where
  decisions : Decisions
  torrentCache : List (String × Metafile)
deriving DecidableEq, Repr

/-- Read `db.data.decisions[name][guid]`. -/
def dbGet (d : Decisions) (name guid : String) : Option DecisionEntry :=
  match lookupA d name with
  | some part => lookupA part guid
  | none => none

/-- `db.data.decisions[name] ??= {}`. -/
def dbEnsure (d : Decisions) (name : String) : Decisions :=
  match lookupA d name with
  | some _ => d
  | none => insertA d name []

/-- `db.data.decisions[name][guid] = e` (the engine only executes this
after `dbEnsure name`, so the missing-partition arm is never reached in
the modelled flow). -/
def dbSet (d : Decisions) (name guid : String) (e : DecisionEntry) : Decisions :=
  match lookupA d name with
  | some part => insertA d name (insertA part guid e)
  | none => insertA d name (insertA [] guid e)

/-- In-place mutation of one field of an existing entry, e.g.
`db.data.decisions[name][guid].lastSeen = t`.  A no-op when the entry is
absent (the source only executes such writes when the entry exists). -/
def dbModify (d : Decisions) (name guid : String)
    (f : DecisionEntry → DecisionEntry) : Decisions :=
  match dbGet d name guid with
  | some e => dbSet d name guid (f e)
  | none => d

/-- The element comparison `cmp` inside `compareFileTrees`. -/
def cmpFiles (elOfA elOfB : FileEntry) : Bool :=
  decide (elOfB.length = elOfA.length) && decide (elOfB.path = elOfA.path)

/-- `compareFileTrees(candidate, searchee)` from decide.ts:
`candidate.files.every(a => searchee.files.some(b => cmp(a, b)))`. -/
def compareFileTrees (candidate : Metafile) (searchee : Searchee) : Bool :=
  candidate.files.all fun elOfA =>
    searchee.files.any fun elOfB => cmpFiles elOfA elOfB

/-- `sizeDoesMatch(resultSize, searchee)` from decide.ts; the runtime
config's `fuzzySizeThreshold` is passed explicitly.  JS numbers are
modelled as exact rationals. -/
def sizeDoesMatch (fuzzySizeThreshold : ℚ) (resultSize : ℚ)
    (searchee : Searchee) : Bool :=
  decide (resultSize ≥ searchee.length - fuzzySizeThreshold * searchee.length) &&
  decide (resultSize ≤ searchee.length + fuzzySizeThreshold * searchee.length)

/-- `assessResultHelper(result, searchee, hashesToExclude)` from decide.ts.
`fetcher` stands for `parseTorrentFromURL`; the second component counts
how many times the fetcher was invoked (instrumentation). -/
def assessResultHelper (fetcher : String → Option Metafile) (fuzzy : ℚ)
    (result : ProwlarrResult) (searchee : Searchee)
    (hashesToExclude : List String) : ResultAssessment × Nat :=
  if !sizeDoesMatch fuzzy result.Size searchee then
    ({ decision := .SIZE_MISMATCH }, 0)
  else
    match result.Link with
    | none => ({ decision := .NO_DOWNLOAD_LINK }, 0)
    | some link =>
      match fetcher link with
      | none => ({ decision := .DOWNLOAD_FAILED }, 1)
      | some info =>
        if hashesToExclude.contains info.infoHash then
          ({ decision := .INFO_HASH_ALREADY_EXISTS }, 1)
        else if !compareFileTrees info searchee then
          ({ decision := .FILE_TREE_MISMATCH }, 1)
        else
          ({ decision := .MATCH, info := some info }, 1)

/-- `[...].includes(x)` where `x` may be `undefined`
(`cacheEntry.infoHash` is optional); `includes(undefined)` on a string
array is `false`. -/
def includesOpt (l : List String) : Option String → Bool
  | some h => l.contains h
  | none => false

/-- `existsInTorrentCache(infoHash)` from decide.ts: existence of
`<infoHash>.cached.torrent` in the cache directory.  An `undefined`
infoHash names no cached file. -/
def existsInTorrentCache (tc : List (String × Metafile)) :
    Option String → Bool
  | some infoHash => (lookupA tc infoHash).isSome
  | none => false

/-- `getCachedTorrentFile(infoHash)`: re-parse the stored bytes.  Returns
`Option` since the file may be absent (the source would throw there; the
engine only calls it under `existsInTorrentCache`). -/
def getCachedTorrentFile (tc : List (String × Metafile)) :
    Option String → Option Metafile
  | some infoHash => lookupA tc infoHash
  | none => none

/-- `cacheTorrentFile(meta)`: write the serialized metainfo under
`meta.infoHash` (overwrite if present). -/
def cacheTorrentFile (tc : List (String × Metafile)) (meta : Metafile) :
    List (String × Metafile) :=
  insertA tc meta.infoHash meta

/-- Return value of `assessAndSaveResults`, with the world threaded
through and the fetch count instrumented. -/
structure SaveResult where
  assessment : ResultAssessment
  world : World
  fetchCount : Nat
deriving DecidableEq, Repr

/-- `assessAndSaveResults(result, searchee, Guid, infoHashesToExclude)`
from decide.ts: run the full assessment, overwrite the cache entry with
`{decision, lastSeen: now, firstSeen: now}`, and on MATCH additionally
set `infoHash` and write the torrent-file cache.  (On MATCH the helper
always returns `info`; the `none` arm is unreachable.) -/
def assessAndSaveResults (fetcher : String → Option Metafile) (fuzzy : ℚ)
    (now : Nat) (result : ProwlarrResult) (searchee : Searchee)
    (Guid : String) (infoHashesToExclude : List String)
    (w : World) : SaveResult :=
  match assessResultHelper fetcher fuzzy result searchee infoHashesToExclude with
  | (assessment, fc) =>
    let d1 := dbSet w.decisions searchee.name Guid
      { decision := assessment.decision, lastSeen := now, firstSeen := now }
    if assessment.decision = .MATCH then
      match assessment.info with
      | some info =>
        { assessment := assessment,
          world :=
            { decisions := dbModify d1 searchee.name Guid
                (fun e => { e with infoHash := some info.infoHash }),
              torrentCache := cacheTorrentFile w.torrentCache info },
          fetchCount := fc }
      | none =>
        { assessment := assessment,
          world := { decisions := d1, torrentCache := w.torrentCache },
          fetchCount := fc }
    else
      { assessment := assessment,
        world := { decisions := d1, torrentCache := w.torrentCache },
        fetchCount := fc }

/-- Return value of one engine invocation (`assessResultCaching`), with
instrumentation: `fetchCount` counts MetafileFetcher invocations,
`reassessed` records whether a full assessment (`assessAndSaveResults`)
ran. -/
structure RunResult where
  assessment : ResultAssessment
  world : World
  fetchCount : Nat
  reassessed : Bool
deriving DecidableEq, Repr

/-- Lift a `SaveResult` into a `RunResult` (a full assessment ran). -/
def saveToRun (s : SaveResult) : RunResult :=
  { assessment := s.assessment, world := s.world,
    fetchCount := s.fetchCount, reassessed := true }

/-- The branch dispatch of `assessResultCaching` (decide.ts lines
285-325), after the partition has been ensured and before the final
`lastSeen` touch. -/
def cacheDispatch (fetcher : String → Option Metafile) (fuzzy : ℚ)
    (now : Nat) (result : ProwlarrResult) (searchee : Searchee)
    (infoHashesToExclude : List String) (w0 : World) : RunResult :=
  match dbGet w0.decisions searchee.name result.Guid with
  | none =>
      saveToRun (assessAndSaveResults fetcher fuzzy now result searchee
        result.Guid infoHashesToExclude w0)
  | some entry =>
      if entry.decision = .DOWNLOAD_FAILED then
        saveToRun (assessAndSaveResults fetcher fuzzy now result searchee
          result.Guid infoHashesToExclude w0)
      else if entry.decision = .MATCH ∧
          includesOpt infoHashesToExclude entry.infoHash = true then
        -- has been added since the last run
        { assessment := { decision := .INFO_HASH_ALREADY_EXISTS },
          world :=
            { decisions := (dbModify w0.decisions searchee.name result.Guid
                (fun e => { e with decision := .INFO_HASH_ALREADY_EXISTS })),
              torrentCache := w0.torrentCache },
          fetchCount := 0, reassessed := false }
      else if entry.decision = .MATCH ∧
          existsInTorrentCache w0.torrentCache entry.infoHash = true then
        -- cached match
        { assessment :=
            { decision := entry.decision,
              info := getCachedTorrentFile w0.torrentCache entry.infoHash },
          world := w0, fetchCount := 0, reassessed := false }
      else if entry.decision = .MATCH then
        saveToRun (assessAndSaveResults fetcher fuzzy now result searchee
          result.Guid infoHashesToExclude w0)
      else
        -- cached rejection
        { assessment := { decision := entry.decision },
          world := w0, fetchCount := 0, reassessed := false }

/-- The final `lastSeen = Date.now()` touch (decide.ts line 326) before
`db.write()`. -/
def touchLastSeen (now : Nat) (name guid : String) (r : RunResult) :
    RunResult :=
  { assessment := r.assessment,
    world :=
      { decisions := (dbModify r.world.decisions name guid
          (fun e => { e with lastSeen := now })),
        torrentCache := r.world.torrentCache },
    fetchCount := r.fetchCount, reassessed := r.reassessed }

/-- `assessResultCaching(result, searchee, infoHashesToExclude)` from
decide.ts, the exported `assessResult`: ensure the partition, dispatch on
the cache entry, then update `lastSeen` and flush. -/
def assessResultCaching (fetcher : String → Option Metafile) (fuzzy : ℚ)
    (now : Nat) (result : ProwlarrResult) (searchee : Searchee)
    (infoHashesToExclude : List String) (w : World) : RunResult :=
  touchLastSeen now searchee.name result.Guid
    (cacheDispatch fetcher fuzzy now result searchee infoHashesToExclude
      { decisions := dbEnsure w.decisions searchee.name,
        torrentCache := w.torrentCache })

/-- The condition under which `assessResultCaching` runs a full
assessment (`assessAndSaveResults`), read off the guards of decide.ts
lines 285-313: no cache entry, a cached `DOWNLOAD_FAILED`, or a cached
`MATCH` whose infoHash is neither excluded nor still present in the
torrent-file cache. -/
def runsFullAssessment (excl : List String) (w : World)
    (name guid : String) : Bool :=
  match dbGet w.decisions name guid with
  | none => true
  | some e =>
      decide (e.decision = .DOWNLOAD_FAILED) ||
      (decide (e.decision = .MATCH) && !includesOpt excl e.infoHash &&
        !existsInTorrentCache w.torrentCache e.infoHash)

/-- The `infoHash` field `assessAndSaveResults` leaves on the freshly
written cache entry: set only on `MATCH` (decide.ts lines 264-267). -/
def assessmentInfoHash (a : ResultAssessment) : Option String :=
  if a.decision = .MATCH then Option.map Metafile.infoHash a.info else none

/-- The torrent-file cache after `assessAndSaveResults`: written only on
`MATCH` (decide.ts line 267). -/
def tcAfter (a : ResultAssessment) (tc : List (String × Metafile)) :
    List (String × Metafile) :=
  match a.info with
  | some info => if a.decision = .MATCH then cacheTorrentFile tc info else tc
  | none => tc

/-- One engine invocation's inputs, for reasoning about sequences of
invocations. -/
structure Call where
  fetcher : String → Option Metafile
  fuzzy : ℚ
  now : Nat
  result : ProwlarrResult
  searchee : Searchee
  excl : List String

/-- Run one `Call`. -/
def runCall (c : Call) (w : World) : RunResult :=
  assessResultCaching c.fetcher c.fuzzy c.now c.result c.searchee c.excl w

/-- The world after one `Call` (for folding over invocation sequences). -/
def stepWorld (w : World) (c : Call) : World := (runCall c w).world

/-- The spec's decision-cache invariant: every entry whose decision is
`MATCH` carries an infoHash. -/
def MatchImpliesInfoHash (d : Decisions) : Prop :=
  ∀ name guid e, dbGet d name guid = some e → e.decision = .MATCH →
    e.infoHash ≠ none

/-- The key `(n, g)` holds no infoHash: the entry is absent or its
`infoHash` field is unset. -/
def EntryHashFree (w : World) (n g : String) : Prop :=
  dbGet w.decisions n g = none ∨
  ∃ e, dbGet w.decisions n g = some e ∧ e.infoHash = none

/-- All states seen along a sequence of invocations: the initial world
and the world after each call. -/
def traceWorlds (w : World) : List Call → List World
  | [] => [w]
  | c :: cs => w :: traceWorlds (stepWorld w c) cs

/-- Decidable check that the entry at `(n, g)`, if present, does not
have decision `MATCH`. -/
def entryNotMatchB (w : World) (n g : String) : Bool :=
  match dbGet w.decisions n g with
  | some e => decide (e.decision ≠ .MATCH)
  | none => true

/-! ### Concrete inputs used by witnesses and counterexamples -/

/-- A file entry shared by the sample searchee and candidate metafile. -/
def fA : FileEntry := { path := "a/b.mkv", length := 100 }

/-- A second file entry, present only in some sample trees. -/
def fB : FileEntry := { path := "a/c.srt", length := 7 }

/-- Sample fetched metafile matching `s0`'s tree. -/
def m0 : Metafile := { infoHash := "HASH0", files := [fA] }

/-- Sample searchee. -/
def s0 : Searchee := { name := "SEARCHEE", files := [fA], length := 100 }

/-- Sample Prowlarr result with a download link and exact size. -/
def r0 : ProwlarrResult :=
  { Guid := "GUID0", Title := "T", IndexerId := 1,
    Link := some "http://x", Size := 100 }

/-- Sample fetcher resolving `r0`'s link to `m0`. -/
def f0 : String → Option Metafile :=
  fun link => if link = "http://x" then some m0 else none

/-- A fetcher for which every download fails. -/
def fetchFail : String → Option Metafile := fun _ => none

/-- The default fuzzy size threshold, 0.02. -/
def q0 : ℚ := 1 / 50

/-- The empty world. -/
def w0 : World := { decisions := [], torrentCache := [] }

/-- A world holding a cached `DOWNLOAD_FAILED` entry for `(s0, r0)`. -/
def wDF : World :=
  { decisions := [("SEARCHEE", [("GUID0",
      { decision := .DOWNLOAD_FAILED, firstSeen := 5, lastSeen := 5 })])],
    torrentCache := [] }

/-- A world holding a cached `MATCH` entry for `(s0, r0)` whose torrent
file is missing from the torrent-file cache. -/
def wMatchNoCache : World :=
  { decisions := [("SEARCHEE", [("GUID0",
      { decision := .MATCH, firstSeen := 5, lastSeen := 5,
        infoHash := some "HASH0" })])],
    torrentCache := [] }

/-- A world holding a cached `INFO_HASH_ALREADY_EXISTS` entry for
`(s0, r0)`. -/
def wIHAE : World :=
  { decisions := [("SEARCHEE", [("GUID0",
      { decision := .INFO_HASH_ALREADY_EXISTS, firstSeen := 5,
        lastSeen := 5, infoHash := some "HASH0" })])],
    torrentCache := [] }

/-- The result of a first, fresh `MATCH` run on the empty world. -/
def runMatch0 : RunResult := assessResultCaching f0 q0 1 r0 s0 [] w0

/-- `runMatch0`'s world with the torrent-file cache externally wiped. -/
def wWiped : World :=
  { decisions := runMatch0.world.decisions, torrentCache := [] }

/-- A sample call hitting the `(s0, r0)` cache key. -/
def c0 : Call :=
  { fetcher := f0, fuzzy := q0, now := 7, result := r0, searchee := s0,
    excl := [] }

/-- A sample call whose fetch always fails (its assessment is
`DOWNLOAD_FAILED`, never `MATCH`). -/
def cFail : Call :=
  { fetcher := fetchFail, fuzzy := q0, now := 3, result := r0,
    searchee := s0, excl := [] }

/-! ### Association-list and cache-store lemmas -/

theorem lookupA_insertA_self {β : Type} (l : List (String × β)) (k : String)
    (v : β) : lookupA (insertA l k v) k = some v := by
  induction l with
  | nil => simp [insertA, lookupA]
  | cons hd t ih =>
    obtain ⟨k0, v0⟩ := hd
    by_cases hk : k0 = k
    · subst hk; simp [insertA, lookupA]
    · simp [insertA, lookupA, hk, ih]

theorem lookupA_insertA_ne {β : Type} (l : List (String × β)) (k k' : String)
    (v : β) (h : k' ≠ k) : lookupA (insertA l k v) k' = lookupA l k' := by
  have h2 : ¬ k = k' := fun he => h he.symm
  induction l with
  | nil => simp [insertA, lookupA, h2]
  | cons hd t ih =>
    obtain ⟨k0, v0⟩ := hd
    by_cases hk : k0 = k
    · rw [hk]
      simp [insertA, lookupA, h2]
    · by_cases hk' : k0 = k'
      · simp [insertA, lookupA, hk, hk', h]
      · simp [insertA, lookupA, hk, hk', ih]

theorem lookupA_dbEnsure_ne (d : Decisions) (n n' : String) (h : n' ≠ n) :
    lookupA (dbEnsure d n) n' = lookupA d n' := by
  unfold dbEnsure
  cases hl : lookupA d n with
  | some part => rfl
  | none => exact lookupA_insertA_ne d n n' [] h

theorem dbGet_dbEnsure (d : Decisions) (n n' g : String) :
    dbGet (dbEnsure d n) n' g = dbGet d n' g := by
  unfold dbGet dbEnsure
  by_cases hn : n' = n
  · cases hl : lookupA d n with
    | some part => simp [hl]
    | none => simp [hn, hl, lookupA_insertA_self, lookupA]
  · cases hl : lookupA d n with
    | some part => simp [hl]
    | none => simp [hl, lookupA_insertA_ne d n n' [] hn]

theorem lookupA_dbSet_ne (d : Decisions) (n n' g : String) (e : DecisionEntry)
    (h : n' ≠ n) : lookupA (dbSet d n g e) n' = lookupA d n' := by
  unfold dbSet
  cases hl : lookupA d n with
  | some part => exact lookupA_insertA_ne d n n' _ h
  | none => exact lookupA_insertA_ne d n n' _ h

theorem dbGet_dbSet_self (d : Decisions) (n g : String) (e : DecisionEntry) :
    dbGet (dbSet d n g e) n g = some e := by
  unfold dbGet dbSet
  cases hl : lookupA d n with
  | some part => simp [lookupA_insertA_self]
  | none => simp [lookupA_insertA_self]

theorem dbGet_dbSet_ne (d : Decisions) (n g n' g' : String) (e : DecisionEntry)
    (h : n' ≠ n ∨ g' ≠ g) : dbGet (dbSet d n g e) n' g' = dbGet d n' g' := by
  by_cases hn : n' = n
  · have hg : g' ≠ g := h.resolve_left (by simp [hn])
    have hg2 : ¬ g = g' := fun he => hg he.symm
    unfold dbGet dbSet
    cases hl : lookupA d n with
    | some part =>
      simp [hn, hl, lookupA_insertA_self, lookupA_insertA_ne part g g' e hg]
    | none =>
      simp [hn, hl, lookupA_insertA_self, lookupA_insertA_ne [] g g' e hg,
        lookupA, hg2]
  · unfold dbGet
    rw [lookupA_dbSet_ne d n n' g e hn]

theorem dbGet_dbModify_self (d : Decisions) (n g : String)
    (f : DecisionEntry → DecisionEntry) :
    dbGet (dbModify d n g f) n g = Option.map f (dbGet d n g) := by
  unfold dbModify
  cases hl : dbGet d n g with
  | some e => rw [dbGet_dbSet_self]; rfl
  | none => rw [hl]; rfl

theorem dbGet_dbModify_ne (d : Decisions) (n g n' g' : String)
    (f : DecisionEntry → DecisionEntry) (h : n' ≠ n ∨ g' ≠ g) :
    dbGet (dbModify d n g f) n' g' = dbGet d n' g' := by
  unfold dbModify
  cases hl : dbGet d n g with
  | some e => exact dbGet_dbSet_ne d n g n' g' (f e) h
  | none => rfl

theorem lookupA_dbModify_ne (d : Decisions) (n g n' : String)
    (f : DecisionEntry → DecisionEntry) (h : n' ≠ n) :
    lookupA (dbModify d n g f) n' = lookupA d n' := by
  unfold dbModify
  cases hl : dbGet d n g with
  | some e => exact lookupA_dbSet_ne d n n' g (f e) h
  | none => rfl

/-! ### Branch equations for the dispatch of `assessResultCaching` -/

theorem cacheDispatch_fresh (fetcher : String → Option Metafile) (fuzzy : ℚ)
    (now : Nat) (result : ProwlarrResult) (searchee : Searchee)
    (excl : List String) (w0 : World)
    (h : dbGet w0.decisions searchee.name result.Guid = none) :
    cacheDispatch fetcher fuzzy now result searchee excl w0 =
      saveToRun (assessAndSaveResults fetcher fuzzy now result searchee
        result.Guid excl w0) := by
  unfold cacheDispatch
  rw [h]

theorem cacheDispatch_downloadFailed (fetcher : String → Option Metafile)
    (fuzzy : ℚ) (now : Nat) (result : ProwlarrResult) (searchee : Searchee)
    (excl : List String) (w0 : World) (entry : DecisionEntry)
    (h : dbGet w0.decisions searchee.name result.Guid = some entry)
    (hd : entry.decision = .DOWNLOAD_FAILED) :
    cacheDispatch fetcher fuzzy now result searchee excl w0 =
      saveToRun (assessAndSaveResults fetcher fuzzy now result searchee
        result.Guid excl w0) := by
  unfold cacheDispatch
  rw [h]
  simp [hd]

theorem cacheDispatch_flip (fetcher : String → Option Metafile) (fuzzy : ℚ)
    (now : Nat) (result : ProwlarrResult) (searchee : Searchee)
    (excl : List String) (w0 : World) (entry : DecisionEntry)
    (h : dbGet w0.decisions searchee.name result.Guid = some entry)
    (hd : entry.decision = .MATCH)
    (hx : includesOpt excl entry.infoHash = true) :
    cacheDispatch fetcher fuzzy now result searchee excl w0 =
      { assessment := { decision := .INFO_HASH_ALREADY_EXISTS, info := none },
        world :=
          { decisions := (dbModify w0.decisions searchee.name result.Guid
              (fun e => { e with decision := .INFO_HASH_ALREADY_EXISTS })),
            torrentCache := w0.torrentCache },
        fetchCount := 0, reassessed := false } := by
  unfold cacheDispatch
  rw [h]
  simp [hd, hx]

theorem cacheDispatch_cachedMatch (fetcher : String → Option Metafile)
    (fuzzy : ℚ) (now : Nat) (result : ProwlarrResult) (searchee : Searchee)
    (excl : List String) (w0 : World) (entry : DecisionEntry)
    (h : dbGet w0.decisions searchee.name result.Guid = some entry)
    (hd : entry.decision = .MATCH)
    (hx : includesOpt excl entry.infoHash = false)
    (hc : existsInTorrentCache w0.torrentCache entry.infoHash = true) :
    cacheDispatch fetcher fuzzy now result searchee excl w0 =
      { assessment :=
          { decision := .MATCH,
            info := getCachedTorrentFile w0.torrentCache entry.infoHash },
        world := w0, fetchCount := 0, reassessed := false } := by
  unfold cacheDispatch
  rw [h]
  simp [hd, hx, hc]

theorem cacheDispatch_staleMatch (fetcher : String → Option Metafile)
    (fuzzy : ℚ) (now : Nat) (result : ProwlarrResult) (searchee : Searchee)
    (excl : List String) (w0 : World) (entry : DecisionEntry)
    (h : dbGet w0.decisions searchee.name result.Guid = some entry)
    (hd : entry.decision = .MATCH)
    (hx : includesOpt excl entry.infoHash = false)
    (hc : existsInTorrentCache w0.torrentCache entry.infoHash = false) :
    cacheDispatch fetcher fuzzy now result searchee excl w0 =
      saveToRun (assessAndSaveResults fetcher fuzzy now result searchee
        result.Guid excl w0) := by
  unfold cacheDispatch
  rw [h]
  simp [hd, hx, hc]

theorem cacheDispatch_cachedRejection (fetcher : String → Option Metafile)
    (fuzzy : ℚ) (now : Nat) (result : ProwlarrResult) (searchee : Searchee)
    (excl : List String) (w0 : World) (entry : DecisionEntry)
    (h : dbGet w0.decisions searchee.name result.Guid = some entry)
    (hd1 : entry.decision ≠ .DOWNLOAD_FAILED)
    (hd2 : entry.decision ≠ .MATCH) :
    cacheDispatch fetcher fuzzy now result searchee excl w0 =
      { assessment := { decision := entry.decision, info := none },
        world := w0, fetchCount := 0, reassessed := false } := by
  unfold cacheDispatch
  rw [h]
  simp [hd1, hd2]

/-! ### Equations for `assessResultHelper` -/

theorem assessResultHelper_sizeMismatch (fetcher : String → Option Metafile)
    (fuzzy : ℚ) (result : ProwlarrResult) (searchee : Searchee)
    (excl : List String)
    (hs : sizeDoesMatch fuzzy result.Size searchee = false) :
    assessResultHelper fetcher fuzzy result searchee excl =
      ({ decision := .SIZE_MISMATCH, info := none }, 0) := by
  unfold assessResultHelper
  simp [hs]

theorem assessResultHelper_noLink (fetcher : String → Option Metafile)
    (fuzzy : ℚ) (result : ProwlarrResult) (searchee : Searchee)
    (excl : List String)
    (hs : sizeDoesMatch fuzzy result.Size searchee = true)
    (hL : result.Link = none) :
    assessResultHelper fetcher fuzzy result searchee excl =
      ({ decision := .NO_DOWNLOAD_LINK, info := none }, 0) := by
  unfold assessResultHelper
  simp [hs, hL]

theorem assessResultHelper_downloadFailed (fetcher : String → Option Metafile)
    (fuzzy : ℚ) (result : ProwlarrResult) (searchee : Searchee)
    (excl : List String) (link : String)
    (hs : sizeDoesMatch fuzzy result.Size searchee = true)
    (hL : result.Link = some link) (hf : fetcher link = none) :
    assessResultHelper fetcher fuzzy result searchee excl =
      ({ decision := .DOWNLOAD_FAILED, info := none }, 1) := by
  unfold assessResultHelper
  simp [hs, hL, hf]

theorem assessResultHelper_hashExcluded (fetcher : String → Option Metafile)
    (fuzzy : ℚ) (result : ProwlarrResult) (searchee : Searchee)
    (excl : List String) (link : String) (info : Metafile)
    (hs : sizeDoesMatch fuzzy result.Size searchee = true)
    (hL : result.Link = some link) (hf : fetcher link = some info)
    (hx : excl.contains info.infoHash = true) :
    assessResultHelper fetcher fuzzy result searchee excl =
      ({ decision := .INFO_HASH_ALREADY_EXISTS, info := none }, 1) := by
  unfold assessResultHelper
  simp at hx
  simp [hs, hL, hf, hx]

theorem assessResultHelper_treeMismatch (fetcher : String → Option Metafile)
    (fuzzy : ℚ) (result : ProwlarrResult) (searchee : Searchee)
    (excl : List String) (link : String) (info : Metafile)
    (hs : sizeDoesMatch fuzzy result.Size searchee = true)
    (hL : result.Link = some link) (hf : fetcher link = some info)
    (hx : excl.contains info.infoHash = false)
    (ht : compareFileTrees info searchee = false) :
    assessResultHelper fetcher fuzzy result searchee excl =
      ({ decision := .FILE_TREE_MISMATCH, info := none }, 1) := by
  unfold assessResultHelper
  simp at hx
  simp [hs, hL, hf, hx, ht]

theorem assessResultHelper_matches (fetcher : String → Option Metafile)
    (fuzzy : ℚ) (result : ProwlarrResult) (searchee : Searchee)
    (excl : List String) (link : String) (info : Metafile)
    (hs : sizeDoesMatch fuzzy result.Size searchee = true)
    (hL : result.Link = some link) (hf : fetcher link = some info)
    (hx : excl.contains info.infoHash = false)
    (ht : compareFileTrees info searchee = true) :
    assessResultHelper fetcher fuzzy result searchee excl =
      ({ decision := .MATCH, info := some info }, 1) := by
  unfold assessResultHelper
  simp at hx
  simp [hs, hL, hf, hx, ht]

/-- Exhaustive case split of `assessResultHelper` along the stage
pipeline of decide.ts lines 197-221. -/
theorem assessResultHelper_cases (fetcher : String → Option Metafile)
    (fuzzy : ℚ) (result : ProwlarrResult) (searchee : Searchee)
    (excl : List String) :
    (sizeDoesMatch fuzzy result.Size searchee = false ∧
      assessResultHelper fetcher fuzzy result searchee excl =
        ({ decision := .SIZE_MISMATCH, info := none }, 0)) ∨
    (sizeDoesMatch fuzzy result.Size searchee = true ∧ result.Link = none ∧
      assessResultHelper fetcher fuzzy result searchee excl =
        ({ decision := .NO_DOWNLOAD_LINK, info := none }, 0)) ∨
    (∃ link, sizeDoesMatch fuzzy result.Size searchee = true ∧
      result.Link = some link ∧ fetcher link = none ∧
      assessResultHelper fetcher fuzzy result searchee excl =
        ({ decision := .DOWNLOAD_FAILED, info := none }, 1)) ∨
    (∃ link info, sizeDoesMatch fuzzy result.Size searchee = true ∧
      result.Link = some link ∧ fetcher link = some info ∧
      excl.contains info.infoHash = true ∧
      assessResultHelper fetcher fuzzy result searchee excl =
        ({ decision := .INFO_HASH_ALREADY_EXISTS, info := none }, 1)) ∨
    (∃ link info, sizeDoesMatch fuzzy result.Size searchee = true ∧
      result.Link = some link ∧ fetcher link = some info ∧
      excl.contains info.infoHash = false ∧
      compareFileTrees info searchee = false ∧
      assessResultHelper fetcher fuzzy result searchee excl =
        ({ decision := .FILE_TREE_MISMATCH, info := none }, 1)) ∨
    (∃ link info, sizeDoesMatch fuzzy result.Size searchee = true ∧
      result.Link = some link ∧ fetcher link = some info ∧
      excl.contains info.infoHash = false ∧
      compareFileTrees info searchee = true ∧
      assessResultHelper fetcher fuzzy result searchee excl =
        ({ decision := .MATCH, info := some info }, 1)) := by
  cases hs : sizeDoesMatch fuzzy result.Size searchee with
  | false =>
    exact Or.inl ⟨rfl,
      assessResultHelper_sizeMismatch fetcher fuzzy result searchee excl hs⟩
  | true =>
    cases hL : result.Link with
    | none =>
      exact Or.inr (Or.inl ⟨rfl, rfl,
        assessResultHelper_noLink fetcher fuzzy result searchee excl hs hL⟩)
    | some link =>
      cases hf : fetcher link with
      | none =>
        exact Or.inr (Or.inr (Or.inl ⟨link, rfl, rfl, hf,
          assessResultHelper_downloadFailed fetcher fuzzy result searchee
            excl link hs hL hf⟩))
      | some info =>
        cases hx : excl.contains info.infoHash with
        | true =>
          exact Or.inr (Or.inr (Or.inr (Or.inl ⟨link, info, rfl, rfl, hf,
            hx, assessResultHelper_hashExcluded fetcher fuzzy result
              searchee excl link info hs hL hf hx⟩)))
        | false =>
          cases ht : compareFileTrees info searchee with
          | false =>
            exact Or.inr (Or.inr (Or.inr (Or.inr (Or.inl ⟨link, info, rfl,
              rfl, hf, hx, ht, assessResultHelper_treeMismatch fetcher
                fuzzy result searchee excl link info hs hL hf hx ht⟩))))
          | true =>
            exact Or.inr (Or.inr (Or.inr (Or.inr (Or.inr ⟨link, info, rfl,
              rfl, hf, hx, ht, assessResultHelper_matches fetcher fuzzy
                result searchee excl link info hs hL hf hx ht⟩))))

/-- Full specification of one `assessAndSaveResults` call in terms of the
helper's outcome: returned assessment and fetch count, the freshly
written cache entry, the torrent-file cache effect, and the frame on all
other cache keys. -/
theorem assessAndSaveResults_spec (fetcher : String → Option Metafile)
    (fuzzy : ℚ) (now : Nat) (result : ProwlarrResult) (searchee : Searchee)
    (Guid : String) (excl : List String) (w : World) (a : ResultAssessment)
    (fc : Nat)
    (hres : assessResultHelper fetcher fuzzy result searchee excl = (a, fc)) :
    (assessAndSaveResults fetcher fuzzy now result searchee Guid excl
        w).assessment = a ∧
    (assessAndSaveResults fetcher fuzzy now result searchee Guid excl
        w).fetchCount = fc ∧
    dbGet (assessAndSaveResults fetcher fuzzy now result searchee Guid excl
        w).world.decisions searchee.name Guid =
      some { decision := a.decision, firstSeen := now, lastSeen := now,
             infoHash := assessmentInfoHash a } ∧
    (assessAndSaveResults fetcher fuzzy now result searchee Guid excl
        w).world.torrentCache = tcAfter a w.torrentCache ∧
    (∀ n' g', n' ≠ searchee.name ∨ g' ≠ Guid →
      dbGet (assessAndSaveResults fetcher fuzzy now result searchee Guid
        excl w).world.decisions n' g' = dbGet w.decisions n' g') ∧
    (∀ n', n' ≠ searchee.name →
      lookupA (assessAndSaveResults fetcher fuzzy now result searchee Guid
        excl w).world.decisions n' = lookupA w.decisions n') := by
  unfold assessAndSaveResults
  rw [hres]
  by_cases hm : a.decision = .MATCH
  · cases hi : a.info with
    | some info =>
      refine ⟨by simp [hm, hi], by simp [hm, hi], ?_, ?_, ?_, ?_⟩
      · simp [hm, hi, assessmentInfoHash, dbGet_dbModify_self,
          dbGet_dbSet_self]
      · simp [hm, hi, tcAfter]
      · intro n' g' h
        simp only [hm, hi, ite_true]
        rw [dbGet_dbModify_ne _ _ _ _ _ _ h, dbGet_dbSet_ne _ _ _ _ _ _ h]
      · intro n' h
        simp only [hm, hi, ite_true]
        rw [lookupA_dbModify_ne _ _ _ _ _ h, lookupA_dbSet_ne _ _ _ _ _ h]
    | none =>
      refine ⟨by simp [hm, hi], by simp [hm, hi], ?_, ?_, ?_, ?_⟩
      · simp [hm, hi, assessmentInfoHash, dbGet_dbSet_self]
      · cases hj : a.info with
        | some info => rw [hj] at hi; cases hi
        | none => simp [hm, hi, tcAfter]
      · intro n' g' h
        simp only [hm, hi, ite_true]
        rw [dbGet_dbSet_ne _ _ _ _ _ _ h]
      · intro n' h
        simp only [hm, hi, ite_true]
        rw [lookupA_dbSet_ne _ _ _ _ _ h]
  · refine ⟨by simp [hm], by simp [hm], ?_, ?_, ?_, ?_⟩
    · simp [hm, assessmentInfoHash, dbGet_dbSet_self]
    · cases hj : a.info with
      | some info => simp [hm, hj, tcAfter]
      | none => simp [hm, hj, tcAfter]
    · intro n' g' h
      simp only [if_neg hm]
      rw [dbGet_dbSet_ne _ _ _ _ _ _ h]
    · intro n' h
      simp only [if_neg hm]
      rw [lookupA_dbSet_ne _ _ _ _ _ h]


/-! ### Master lemmas for one engine invocation -/

/-- When `runsFullAssessment` is false, the cache entry exists and one of
the three non-reassessing branches applies. -/
theorem runsFullAssessment_false_cases (excl : List String) (w : World)
    (name guid : String)
    (hR : runsFullAssessment excl w name guid = false) :
    ∃ e, dbGet w.decisions name guid = some e ∧
      ((e.decision = .MATCH ∧ includesOpt excl e.infoHash = true) ∨
       (e.decision = .MATCH ∧ includesOpt excl e.infoHash = false ∧
         existsInTorrentCache w.torrentCache e.infoHash = true) ∨
       (e.decision ≠ .DOWNLOAD_FAILED ∧ e.decision ≠ .MATCH)) := by
  unfold runsFullAssessment at hR
  rcases hE : dbGet w.decisions name guid with _ | e
  · rw [hE] at hR; cases hR
  · rw [hE] at hR
    refine ⟨e, rfl, ?_⟩
    by_cases hm : e.decision = .MATCH
    · cases hx : includesOpt excl e.infoHash with
      | true => exact Or.inl ⟨hm, rfl⟩
      | false =>
        cases hc : existsInTorrentCache w.torrentCache e.infoHash with
        | true => exact Or.inr (Or.inl ⟨hm, rfl, rfl⟩)
        | false => exfalso; simp [hm, hx, hc] at hR
    · by_cases hdf : e.decision = .DOWNLOAD_FAILED
      · exfalso; simp [hdf] at hR
      · exact Or.inr (Or.inr ⟨hdf, hm⟩)

/-- Invocation spec, reassessing branches (no entry, cached
`DOWNLOAD_FAILED`, stale cached `MATCH`): the helper runs, its assessment
is returned, and the entry is rewritten wholesale with
`firstSeen = lastSeen = now`. -/
theorem run_reassess_spec (fetcher : String → Option Metafile) (fuzzy : ℚ)
    (now : Nat) (result : ProwlarrResult) (searchee : Searchee)
    (excl : List String) (w : World) (a : ResultAssessment) (fc : Nat)
    (hres : assessResultHelper fetcher fuzzy result searchee excl = (a, fc))
    (hR : runsFullAssessment excl w searchee.name result.Guid = true) :
    (assessResultCaching fetcher fuzzy now result searchee excl
        w).assessment = a ∧
    (assessResultCaching fetcher fuzzy now result searchee excl
        w).fetchCount = fc ∧
    (assessResultCaching fetcher fuzzy now result searchee excl
        w).reassessed = true ∧
    dbGet (assessResultCaching fetcher fuzzy now result searchee excl
        w).world.decisions searchee.name result.Guid =
      some { decision := a.decision, firstSeen := now, lastSeen := now,
             infoHash := assessmentInfoHash a } ∧
    (assessResultCaching fetcher fuzzy now result searchee excl
        w).world.torrentCache = tcAfter a w.torrentCache := by
  have hcd : cacheDispatch fetcher fuzzy now result searchee excl
      { decisions := dbEnsure w.decisions searchee.name,
        torrentCache := w.torrentCache } =
      saveToRun (assessAndSaveResults fetcher fuzzy now result searchee
        result.Guid excl
        { decisions := dbEnsure w.decisions searchee.name,
          torrentCache := w.torrentCache }) := by
    unfold runsFullAssessment at hR
    rcases hE : dbGet w.decisions searchee.name result.Guid with _ | e
    · refine cacheDispatch_fresh fetcher fuzzy now result searchee excl _
        ?_
      show dbGet (dbEnsure w.decisions searchee.name) searchee.name
        result.Guid = none
      rw [dbGet_dbEnsure]; exact hE
    · rw [hE] at hR
      have hE2 : dbGet (dbEnsure w.decisions searchee.name) searchee.name
          result.Guid = some e := by
        rw [dbGet_dbEnsure]; exact hE
      by_cases hdf : e.decision = .DOWNLOAD_FAILED
      · exact cacheDispatch_downloadFailed fetcher fuzzy now result
          searchee excl _ e hE2 hdf
      · by_cases hm : e.decision = .MATCH
        · cases hx : includesOpt excl e.infoHash with
          | true => exfalso; simp [hdf, hm, hx] at hR
          | false =>
            cases hc : existsInTorrentCache w.torrentCache e.infoHash with
            | true => exfalso; simp [hdf, hm, hx, hc] at hR
            | false =>
              exact cacheDispatch_staleMatch fetcher fuzzy now result
                searchee excl _ e hE2 hm hx hc
        · exfalso; simp [hdf, hm] at hR
  obtain ⟨ha, hfc, hentry, htc, hframe, hpart⟩ :=
    assessAndSaveResults_spec fetcher fuzzy now result searchee
      result.Guid excl
      { decisions := dbEnsure w.decisions searchee.name,
        torrentCache := w.torrentCache } a fc hres
  unfold assessResultCaching touchLastSeen
  rw [hcd]
  unfold saveToRun
  refine ⟨ha, hfc, rfl, ?_, htc⟩
  rw [dbGet_dbModify_self, hentry]
  rfl

/-- Invocation spec, exclusion-flip branch: cached `MATCH` whose infoHash
is excluded.  The decision flips in place; `firstSeen` and `infoHash` are
retained, no fetch happens. -/
theorem run_flip_spec (fetcher : String → Option Metafile) (fuzzy : ℚ)
    (now : Nat) (result : ProwlarrResult) (searchee : Searchee)
    (excl : List String) (w : World) (e : DecisionEntry)
    (hE : dbGet w.decisions searchee.name result.Guid = some e)
    (hdm : e.decision = .MATCH)
    (hx : includesOpt excl e.infoHash = true) :
    (assessResultCaching fetcher fuzzy now result searchee excl
        w).assessment =
      { decision := .INFO_HASH_ALREADY_EXISTS, info := none } ∧
    (assessResultCaching fetcher fuzzy now result searchee excl
        w).fetchCount = 0 ∧
    (assessResultCaching fetcher fuzzy now result searchee excl
        w).reassessed = false ∧
    dbGet (assessResultCaching fetcher fuzzy now result searchee excl
        w).world.decisions searchee.name result.Guid =
      some { decision := .INFO_HASH_ALREADY_EXISTS,
             firstSeen := e.firstSeen, lastSeen := now,
             infoHash := e.infoHash } ∧
    (assessResultCaching fetcher fuzzy now result searchee excl
        w).world.torrentCache = w.torrentCache := by
  have hE2 : dbGet (dbEnsure w.decisions searchee.name) searchee.name
      result.Guid = some e := by
    rw [dbGet_dbEnsure]; exact hE
  unfold assessResultCaching touchLastSeen
  rw [cacheDispatch_flip fetcher fuzzy now result searchee excl
    ⟨dbEnsure w.decisions searchee.name, w.torrentCache⟩ e hE2 hdm hx]
  refine ⟨rfl, rfl, rfl, ?_, rfl⟩
  rw [dbGet_dbModify_self, dbGet_dbModify_self, dbGet_dbEnsure, hE]
  rfl

/-- Invocation spec, cached-match branch: cached `MATCH`, not excluded,
bytes still cached.  The cached metafile is returned without a fetch and
the entry only gets its `lastSeen` bumped. -/
theorem run_cachedMatch_spec (fetcher : String → Option Metafile)
    (fuzzy : ℚ) (now : Nat) (result : ProwlarrResult) (searchee : Searchee)
    (excl : List String) (w : World) (e : DecisionEntry)
    (hE : dbGet w.decisions searchee.name result.Guid = some e)
    (hdm : e.decision = .MATCH)
    (hx : includesOpt excl e.infoHash = false)
    (hc : existsInTorrentCache w.torrentCache e.infoHash = true) :
    (assessResultCaching fetcher fuzzy now result searchee excl
        w).assessment =
      { decision := .MATCH,
        info := getCachedTorrentFile w.torrentCache e.infoHash } ∧
    (assessResultCaching fetcher fuzzy now result searchee excl
        w).fetchCount = 0 ∧
    (assessResultCaching fetcher fuzzy now result searchee excl
        w).reassessed = false ∧
    dbGet (assessResultCaching fetcher fuzzy now result searchee excl
        w).world.decisions searchee.name result.Guid =
      some { decision := e.decision, firstSeen := e.firstSeen,
             lastSeen := now, infoHash := e.infoHash } ∧
    (assessResultCaching fetcher fuzzy now result searchee excl
        w).world.torrentCache = w.torrentCache := by
  have hE2 : dbGet (dbEnsure w.decisions searchee.name) searchee.name
      result.Guid = some e := by
    rw [dbGet_dbEnsure]; exact hE
  unfold assessResultCaching touchLastSeen
  rw [cacheDispatch_cachedMatch fetcher fuzzy now result searchee excl
    ⟨dbEnsure w.decisions searchee.name, w.torrentCache⟩ e hE2 hdm hx hc]
  refine ⟨rfl, rfl, rfl, ?_, rfl⟩
  rw [dbGet_dbModify_self, dbGet_dbEnsure, hE]
  rfl

/-- Invocation spec, cached-rejection branch: any cached decision other
than `DOWNLOAD_FAILED` and `MATCH` is returned verbatim, with no fetch
and only `lastSeen` bumped. -/
theorem run_rejection_spec (fetcher : String → Option Metafile)
    (fuzzy : ℚ) (now : Nat) (result : ProwlarrResult) (searchee : Searchee)
    (excl : List String) (w : World) (e : DecisionEntry)
    (hE : dbGet w.decisions searchee.name result.Guid = some e)
    (hd1 : e.decision ≠ .DOWNLOAD_FAILED) (hd2 : e.decision ≠ .MATCH) :
    (assessResultCaching fetcher fuzzy now result searchee excl
        w).assessment = { decision := e.decision, info := none } ∧
    (assessResultCaching fetcher fuzzy now result searchee excl
        w).fetchCount = 0 ∧
    (assessResultCaching fetcher fuzzy now result searchee excl
        w).reassessed = false ∧
    dbGet (assessResultCaching fetcher fuzzy now result searchee excl
        w).world.decisions searchee.name result.Guid =
      some { decision := e.decision, firstSeen := e.firstSeen,
             lastSeen := now, infoHash := e.infoHash } ∧
    (assessResultCaching fetcher fuzzy now result searchee excl
        w).world.torrentCache = w.torrentCache := by
  have hE2 : dbGet (dbEnsure w.decisions searchee.name) searchee.name
      result.Guid = some e := by
    rw [dbGet_dbEnsure]; exact hE
  unfold assessResultCaching touchLastSeen
  rw [cacheDispatch_cachedRejection fetcher fuzzy now result searchee excl
    ⟨dbEnsure w.decisions searchee.name, w.torrentCache⟩ e hE2 hd1 hd2]
  refine ⟨rfl, rfl, rfl, ?_, rfl⟩
  rw [dbGet_dbModify_self, dbGet_dbEnsure, hE]
  rfl

/-- Frame of the dispatch: cache keys other than
`(searchee.name, result.Guid)` are untouched. -/
theorem cacheDispatch_frame (fetcher : String → Option Metafile)
    (fuzzy : ℚ) (now : Nat) (result : ProwlarrResult) (searchee : Searchee)
    (excl : List String) (w0 : World) (n' g' : String)
    (h : n' ≠ searchee.name ∨ g' ≠ result.Guid) :
    dbGet (cacheDispatch fetcher fuzzy now result searchee excl
        w0).world.decisions n' g' = dbGet w0.decisions n' g' ∧
    (n' ≠ searchee.name →
      lookupA (cacheDispatch fetcher fuzzy now result searchee excl
        w0).world.decisions n' = lookupA w0.decisions n') := by
  obtain ⟨ha, hfc, hentry, htc, hframe, hpart⟩ :=
    assessAndSaveResults_spec fetcher fuzzy now result searchee
      result.Guid excl w0
      (assessResultHelper fetcher fuzzy result searchee excl).1
      (assessResultHelper fetcher fuzzy result searchee excl).2 rfl
  rcases hE : dbGet w0.decisions searchee.name result.Guid with _ | e
  · rw [cacheDispatch_fresh fetcher fuzzy now result searchee excl w0 hE]
    simp only [saveToRun]
    exact ⟨hframe n' g' h, fun hn => hpart n' hn⟩
  · by_cases h1 : e.decision = .DOWNLOAD_FAILED
    · rw [cacheDispatch_downloadFailed fetcher fuzzy now result searchee
        excl w0 e hE h1]
      simp only [saveToRun]
      exact ⟨hframe n' g' h, fun hn => hpart n' hn⟩
    · by_cases hm : e.decision = .MATCH
      · cases hx : includesOpt excl e.infoHash with
        | true =>
          rw [cacheDispatch_flip fetcher fuzzy now result searchee excl w0
            e hE hm hx]
          refine ⟨?_, fun hn => ?_⟩
          · rw [dbGet_dbModify_ne _ _ _ _ _ _ h]
          · rw [lookupA_dbModify_ne _ _ _ _ _ hn]
        | false =>
          cases hc : existsInTorrentCache w0.torrentCache e.infoHash with
          | true =>
            rw [cacheDispatch_cachedMatch fetcher fuzzy now result
              searchee excl w0 e hE hm hx hc]
            exact ⟨rfl, fun _ => rfl⟩
          | false =>
            rw [cacheDispatch_staleMatch fetcher fuzzy now result searchee
              excl w0 e hE hm hx hc]
            simp only [saveToRun]
            exact ⟨hframe n' g' h, fun hn => hpart n' hn⟩
      · rw [cacheDispatch_cachedRejection fetcher fuzzy now result
          searchee excl w0 e hE h1 hm]
        exact ⟨rfl, fun _ => rfl⟩

/-- Frame of a whole invocation: every cache key other than
`(searchee.name, result.Guid)` reads the same before and after, and every
partition other than the searchee's is untouched. -/
theorem run_frame (fetcher : String → Option Metafile) (fuzzy : ℚ)
    (now : Nat) (result : ProwlarrResult) (searchee : Searchee)
    (excl : List String) (w : World) (n' g' : String)
    (h : n' ≠ searchee.name ∨ g' ≠ result.Guid) :
    dbGet (assessResultCaching fetcher fuzzy now result searchee excl
        w).world.decisions n' g' = dbGet w.decisions n' g' ∧
    (n' ≠ searchee.name →
      lookupA (assessResultCaching fetcher fuzzy now result searchee excl
        w).world.decisions n' = lookupA w.decisions n') := by
  obtain ⟨hf, hp⟩ := cacheDispatch_frame fetcher fuzzy now result searchee
    excl ⟨dbEnsure w.decisions searchee.name, w.torrentCache⟩ n' g' h
  unfold assessResultCaching touchLastSeen
  constructor
  · rw [dbGet_dbModify_ne _ _ _ _ _ _ h, hf]
    exact dbGet_dbEnsure w.decisions searchee.name n' g'
  · intro hn
    rw [lookupA_dbModify_ne _ _ _ _ _ hn, hp hn]
    exact lookupA_dbEnsure_ne w.decisions searchee.name n' hn

/-! ### Claims -/

/-- C7: the size filter accepts a candidate size `sz` for a searchee of
total length `L` and tolerance `t` iff `L*(1-t) ≤ sz ≤ L*(1+t)`, with
both boundaries inclusive; in particular (for nonnegative `t` and `L`)
the boundary sizes `L*(1-t)` and `L*(1+t)` are accepted. -/
theorem c7_sizeFilter_bounds (t sz : ℚ) (s : Searchee) :
    (sizeDoesMatch t sz s = true ↔
      s.length * (1 - t) ≤ sz ∧ sz ≤ s.length * (1 + t)) ∧
    (0 ≤ t → 0 ≤ s.length →
      sizeDoesMatch t (s.length * (1 - t)) s = true ∧
      sizeDoesMatch t (s.length * (1 + t)) s = true) := by
  have hlow : s.length - t * s.length = s.length * (1 - t) := by ring
  have hhigh : s.length + t * s.length = s.length * (1 + t) := by ring
  constructor
  · unfold sizeDoesMatch
    rw [hlow, hhigh]
    simp [ge_iff_le]
  · intro ht hL
    have hb : s.length * (1 - t) ≤ s.length * (1 + t) := by nlinarith
    unfold sizeDoesMatch
    rw [hlow, hhigh]
    constructor <;> simp [ge_iff_le, hb]

/-- C7 witness: the boundary sizes are accepted at the default tolerance
0.02 for the sample searchee. -/
theorem c7_sizeFilter_bounds_witness :
    sizeDoesMatch q0 (s0.length * (1 - q0)) s0 = true ∧
    sizeDoesMatch q0 (s0.length * (1 + q0)) s0 = true :=
  (c7_sizeFilter_bounds q0 0 s0).2 (by decide) (by decide)

/-- C8: the file-tree comparator returns true iff every candidate file
has a searchee file with identical path string and identical length; the
comparison is asymmetric (extra searchee files are fine, extra candidate
files are not) and applies no path normalization or case folding. -/
theorem c8_compareFileTrees_subset (c : Metafile) (s : Searchee) :
    (compareFileTrees c s = true ↔
      ∀ f ∈ c.files, ∃ g ∈ s.files,
        g.path = f.path ∧ g.length = f.length) ∧
    compareFileTrees { infoHash := "HX", files := [fA] }
      { name := "N", files := [fA, fB], length := 0 } = true ∧
    compareFileTrees { infoHash := "HX", files := [fA, fB] }
      { name := "N", files := [fA], length := 0 } = false ∧
    compareFileTrees
      { infoHash := "HX", files := [{ path := "A", length := 1 }] }
      { name := "N", files := [{ path := "a", length := 1 }], length := 0 }
      = false := by
  refine ⟨?_, by decide, by decide, by decide⟩
  unfold compareFileTrees cmpFiles
  simp only [List.all_eq_true, List.any_eq_true, Bool.and_eq_true,
    decide_eq_true_eq]
  constructor
  · intro h f hf
    obtain ⟨g, hg, h1, h2⟩ := h f hf
    exact ⟨g, hg, h2, h1⟩
  · intro h f hf
    obtain ⟨g, hg, h1, h2⟩ := h f hf
    exact ⟨g, hg, h2, h1⟩

/-- C8 witness: the subset law evaluated on the sample candidate and
searchee trees. -/
theorem c8_compareFileTrees_subset_witness :
    compareFileTrees { infoHash := "HX", files := [fA] }
      { name := "N", files := [fA, fB], length := 0 } = true :=
  (c8_compareFileTrees_subset m0 s0).2.1

/-- C2: for a cached `MATCH` entry whose stored infoHash is in the
caller-supplied exclusion set, the engine returns
`INFO_HASH_ALREADY_EXISTS`, rewrites the cached decision to
`INFO_HASH_ALREADY_EXISTS`, and never invokes the MetafileFetcher during
that invocation. -/
theorem c2_exclusion_flip (fetcher : String → Option Metafile) (fuzzy : ℚ)
    (now : Nat) (result : ProwlarrResult) (searchee : Searchee)
    (excl : List String) (w : World) (e : DecisionEntry) (hash : String)
    (hE : dbGet w.decisions searchee.name result.Guid = some e)
    (hdm : e.decision = .MATCH) (hh : e.infoHash = some hash)
    (hx : hash ∈ excl) :
    (assessResultCaching fetcher fuzzy now result searchee excl
        w).assessment.decision = .INFO_HASH_ALREADY_EXISTS ∧
    (assessResultCaching fetcher fuzzy now result searchee excl
        w).fetchCount = 0 ∧
    ∃ e', dbGet (assessResultCaching fetcher fuzzy now result searchee
        excl w).world.decisions searchee.name result.Guid = some e' ∧
      e'.decision = .INFO_HASH_ALREADY_EXISTS ∧
      e'.infoHash = some hash ∧ e'.firstSeen = e.firstSeen := by
  have hx' : includesOpt excl e.infoHash = true := by
    simp [includesOpt, hh, hx]
  obtain ⟨ha, hfc, _, hentry, _⟩ :=
    run_flip_spec fetcher fuzzy now result searchee excl w e hE hdm hx'
  refine ⟨by rw [ha], hfc, ?_⟩
  exact ⟨_, hentry, rfl, hh, rfl⟩

/-- C2 witness: the exclusion flip on the sample cached `MATCH` entry. -/
theorem c2_exclusion_flip_witness :
    (assessResultCaching f0 q0 9 r0 s0 ["HASH0"]
        wMatchNoCache).assessment.decision = .INFO_HASH_ALREADY_EXISTS ∧
    (assessResultCaching f0 q0 9 r0 s0 ["HASH0"]
        wMatchNoCache).fetchCount = 0 :=
  ⟨(c2_exclusion_flip f0 q0 9 r0 s0 ["HASH0"] wMatchNoCache
      { decision := .MATCH, firstSeen := 5, lastSeen := 5,
        infoHash := some "HASH0" } "HASH0" (by decide) rfl rfl
      (by decide)).1,
   (c2_exclusion_flip f0 q0 9 r0 s0 ["HASH0"] wMatchNoCache
      { decision := .MATCH, firstSeen := 5, lastSeen := 5,
        infoHash := some "HASH0" } "HASH0" (by decide) rfl rfl
      (by decide)).2.1⟩

/-- C1 counterexample: a cache entry existed (decision
`DOWNLOAD_FAILED`, firstSeen = 5), yet the next invocation rewrites
`firstSeen` to the current time 99 — refuting "firstSeen is written only
when no cache entry previously existed". -/
theorem c1_counterexample :
    dbGet wDF.decisions "SEARCHEE" "GUID0" =
      some { decision := .DOWNLOAD_FAILED, firstSeen := 5, lastSeen := 5,
             infoHash := none } ∧
    dbGet (assessResultCaching fetchFail q0 99 r0 s0 []
        wDF).world.decisions "SEARCHEE" "GUID0" =
      some { decision := .DOWNLOAD_FAILED, firstSeen := 99,
             lastSeen := 99, infoHash := none } := by
  decide

/-- C1 (amended): `lastSeen` is set to the invocation time in every
branch; `firstSeen` is rewritten to the invocation time exactly when a
full assessment runs (no cache entry, cached `DOWNLOAD_FAILED`, or stale
cached `MATCH`), and is retained from the existing entry in the other
branches. -/
theorem c1_timestamps (fetcher : String → Option Metafile) (fuzzy : ℚ)
    (now : Nat) (result : ProwlarrResult) (searchee : Searchee)
    (excl : List String) (w : World) :
    ∃ e', dbGet (assessResultCaching fetcher fuzzy now result searchee
        excl w).world.decisions searchee.name result.Guid = some e' ∧
      e'.lastSeen = now ∧
      (runsFullAssessment excl w searchee.name result.Guid = true →
        e'.firstSeen = now) ∧
      (∀ e, dbGet w.decisions searchee.name result.Guid = some e →
        runsFullAssessment excl w searchee.name result.Guid = false →
        e'.firstSeen = e.firstSeen) := by
  cases hRF : runsFullAssessment excl w searchee.name result.Guid with
  | true =>
    obtain ⟨_, _, _, hentry, _⟩ := run_reassess_spec fetcher fuzzy now
      result searchee excl w
      (assessResultHelper fetcher fuzzy result searchee excl).1
      (assessResultHelper fetcher fuzzy result searchee excl).2 rfl hRF
    exact ⟨_, hentry, rfl, fun _ => rfl, fun e hE hf => nomatch hf⟩
  | false =>
    obtain ⟨e, hE, hbr⟩ := runsFullAssessment_false_cases excl w
      searchee.name result.Guid hRF
    have huniq : ∀ e'', dbGet w.decisions searchee.name result.Guid =
        some e'' → e'' = e := fun e'' h'' => by
      rw [hE] at h''; exact (Option.some.inj h'').symm
    rcases hbr with ⟨hm, hx⟩ | ⟨hm, hx, hc⟩ | ⟨hd1, hd2⟩
    · obtain ⟨_, _, _, hentry, _⟩ := run_flip_spec fetcher fuzzy now
        result searchee excl w e hE hm hx
      refine ⟨_, hentry, rfl, ?_, ?_⟩
      · intro ht; simp at ht
      · intro e'' h'' _
        rw [huniq e'' h'']
    · obtain ⟨_, _, _, hentry, _⟩ := run_cachedMatch_spec fetcher fuzzy
        now result searchee excl w e hE hm hx hc
      refine ⟨_, hentry, rfl, ?_, ?_⟩
      · intro ht; simp at ht
      · intro e'' h'' _
        rw [huniq e'' h'']
    · obtain ⟨_, _, _, hentry, _⟩ := run_rejection_spec fetcher fuzzy now
        result searchee excl w e hE hd1 hd2
      refine ⟨_, hentry, rfl, ?_, ?_⟩
      · intro ht; simp at ht
      · intro e'' h'' _
        rw [huniq e'' h'']

/-- C1 witness: on the sample cached `MATCH` world with the hash
excluded, the amended law yields a retained `firstSeen` and a bumped
`lastSeen`. -/
theorem c1_timestamps_witness :
    ∃ e', dbGet (assessResultCaching f0 q0 9 r0 s0 ["HASH0"]
        wMatchNoCache).world.decisions s0.name r0.Guid = some e' ∧
      e'.lastSeen = 9 ∧
      (runsFullAssessment ["HASH0"] wMatchNoCache s0.name r0.Guid = true →
        e'.firstSeen = 9) ∧
      (∀ e, dbGet wMatchNoCache.decisions s0.name r0.Guid = some e →
        runsFullAssessment ["HASH0"] wMatchNoCache s0.name r0.Guid =
          false → e'.firstSeen = e.firstSeen) :=
  c1_timestamps f0 q0 9 r0 s0 ["HASH0"] wMatchNoCache

/-- C3 counterexample: a cached `MATCH` entry whose infoHash is excluded
and whose bytes are missing from the torrent-file cache does NOT trigger
a full re-assessment — the exclusion flip wins, with no fetch — refuting
the claimed "iff" (which omits the exclusion condition). -/
theorem c3_counterexample :
    dbGet wMatchNoCache.decisions "SEARCHEE" "GUID0" =
      some { decision := .MATCH, firstSeen := 5, lastSeen := 5,
             infoHash := some "HASH0" } ∧
    existsInTorrentCache wMatchNoCache.torrentCache (some "HASH0") =
      false ∧
    (assessResultCaching f0 q0 9 r0 s0 ["HASH0"]
        wMatchNoCache).reassessed = false ∧
    (assessResultCaching f0 q0 9 r0 s0 ["HASH0"]
        wMatchNoCache).fetchCount = 0 ∧
    (assessResultCaching f0 q0 9 r0 s0 ["HASH0"]
        wMatchNoCache).assessment.decision = .INFO_HASH_ALREADY_EXISTS :=
  by decide

/-- C3 (amended): for a cached entry, a full re-assessment runs iff the
cached decision is `DOWNLOAD_FAILED`, or is `MATCH` with the stored
infoHash neither excluded nor present in the torrent-file cache; a
cached `SIZE_MISMATCH`, `NO_DOWNLOAD_LINK`, `FILE_TREE_MISMATCH` or
`INFO_HASH_ALREADY_EXISTS` entry is returned verbatim with no fetch. -/
theorem c3_retry_policy (fetcher : String → Option Metafile) (fuzzy : ℚ)
    (now : Nat) (result : ProwlarrResult) (searchee : Searchee)
    (excl : List String) (w : World) (e : DecisionEntry)
    (hE : dbGet w.decisions searchee.name result.Guid = some e) :
    ((assessResultCaching fetcher fuzzy now result searchee excl
        w).reassessed = true ↔
      (e.decision = .DOWNLOAD_FAILED ∨
       (e.decision = .MATCH ∧ includesOpt excl e.infoHash = false ∧
        existsInTorrentCache w.torrentCache e.infoHash = false))) ∧
    ((e.decision = .SIZE_MISMATCH ∨ e.decision = .NO_DOWNLOAD_LINK ∨
      e.decision = .FILE_TREE_MISMATCH ∨
      e.decision = .INFO_HASH_ALREADY_EXISTS) →
      (assessResultCaching fetcher fuzzy now result searchee excl
        w).assessment.decision = e.decision ∧
      (assessResultCaching fetcher fuzzy now result searchee excl
        w).fetchCount = 0) := by
  by_cases hdf : e.decision = .DOWNLOAD_FAILED
  · have hRF : runsFullAssessment excl w searchee.name result.Guid =
        true := by
      unfold runsFullAssessment; rw [hE]; simp [hdf]
    obtain ⟨_, _, hre, _, _⟩ := run_reassess_spec fetcher fuzzy now result
      searchee excl w
      (assessResultHelper fetcher fuzzy result searchee excl).1
      (assessResultHelper fetcher fuzzy result searchee excl).2 rfl hRF
    constructor
    · rw [hre]; simp [hdf]
    · intro hrej; exfalso
      rcases hrej with h | h | h | h <;>
        (rw [h] at hdf; exact Decision.noConfusion hdf)
  · by_cases hm : e.decision = .MATCH
    · have hvac : ¬(e.decision = .SIZE_MISMATCH ∨
          e.decision = .NO_DOWNLOAD_LINK ∨
          e.decision = .FILE_TREE_MISMATCH ∨
          e.decision = .INFO_HASH_ALREADY_EXISTS) := by
        intro hrej
        rcases hrej with h | h | h | h <;>
          (rw [h] at hm; exact Decision.noConfusion hm)
      cases hx : includesOpt excl e.infoHash with
      | true =>
        obtain ⟨_, _, hre, _, _⟩ := run_flip_spec fetcher fuzzy now result
          searchee excl w e hE hm hx
        exact ⟨by rw [hre]; simp [hm, hx], fun hrej => absurd hrej hvac⟩
      | false =>
        cases hc : existsInTorrentCache w.torrentCache e.infoHash with
        | true =>
          obtain ⟨_, _, hre, _, _⟩ := run_cachedMatch_spec fetcher fuzzy
            now result searchee excl w e hE hm hx hc
          exact ⟨by rw [hre]; simp [hm, hx, hc],
            fun hrej => absurd hrej hvac⟩
        | false =>
          have hRF : runsFullAssessment excl w searchee.name result.Guid =
              true := by
            unfold runsFullAssessment; rw [hE]; simp [hm, hx, hc]
          obtain ⟨_, _, hre, _, _⟩ := run_reassess_spec fetcher fuzzy now
            result searchee excl w
            (assessResultHelper fetcher fuzzy result searchee excl).1
            (assessResultHelper fetcher fuzzy result searchee excl).2 rfl
            hRF
          exact ⟨by rw [hre]; simp [hm, hx, hc],
            fun hrej => absurd hrej hvac⟩
    · obtain ⟨ha, hfc, hre, _, _⟩ := run_rejection_spec fetcher fuzzy now
        result searchee excl w e hE hdf hm
      constructor
      · rw [hre]; simp [hdf, hm]
      · intro hrej
        exact ⟨by rw [ha], hfc⟩

/-- C3 witness: the amended retry law evaluated on the sample cached
`DOWNLOAD_FAILED` world. -/
theorem c3_retry_policy_witness :
    (assessResultCaching fetchFail q0 9 r0 s0 [] wDF).reassessed = true ↔
      (Decision.DOWNLOAD_FAILED = .DOWNLOAD_FAILED ∨
       (Decision.DOWNLOAD_FAILED = .MATCH ∧
        includesOpt [] (none : Option String) = false ∧
        existsInTorrentCache wDF.torrentCache (none : Option String) =
          false)) :=
  (c3_retry_policy fetchFail q0 9 r0 s0 [] wDF
    { decision := .DOWNLOAD_FAILED, firstSeen := 5, lastSeen := 5,
      infoHash := none } (by decide)).1

/-- C4 counterexample: an entry whose decision was `MATCH` (with
infoHash set) is wholesale-replaced by a later full re-assessment — here
the torrent-file cache was externally wiped and the re-fetch failed — so
the entry ends with decision `DOWNLOAD_FAILED` and NO infoHash, refuting
"every entry whose decision is or ever was MATCH retains an infoHash". -/
theorem c4_counterexample :
    dbGet runMatch0.world.decisions "SEARCHEE" "GUID0" =
      some { decision := .MATCH, firstSeen := 1, lastSeen := 1,
             infoHash := some "HASH0" } ∧
    dbGet (assessResultCaching fetchFail q0 2 r0 s0 []
        wWiped).world.decisions "SEARCHEE" "GUID0" =
      some { decision := .DOWNLOAD_FAILED, firstSeen := 2, lastSeen := 2,
             infoHash := none } := by
  decide

/-- One invocation preserves the invariant "decision = MATCH implies
infoHash is set". -/
theorem run_preserves_matchImpliesInfoHash
    (fetcher : String → Option Metafile)
    (fuzzy : ℚ) (now : Nat) (result : ProwlarrResult)
    (searchee : Searchee) (excl : List String) (w : World)
    (hinv : MatchImpliesInfoHash w.decisions) :
    MatchImpliesInfoHash (assessResultCaching fetcher fuzzy now result
      searchee excl w).world.decisions := by
  intro name guid e' hE' hm'
  by_cases hn : name = searchee.name
  · by_cases hg : guid = result.Guid
    · subst hn; subst hg
      cases hRF : runsFullAssessment excl w searchee.name result.Guid
        with
      | true =>
        obtain ⟨_, _, _, hentry, _⟩ := run_reassess_spec fetcher fuzzy
          now result searchee excl w
          (assessResultHelper fetcher fuzzy result searchee excl).1
          (assessResultHelper fetcher fuzzy result searchee excl).2 rfl
          hRF
        rw [hentry] at hE'
        obtain rfl := Option.some.inj hE'
        have hm2 : (assessResultHelper fetcher fuzzy result searchee
            excl).1.decision = .MATCH := hm'
        show assessmentInfoHash
          (assessResultHelper fetcher fuzzy result searchee excl).1 ≠ none
        rcases assessResultHelper_cases fetcher fuzzy result searchee excl
          with ⟨hs, heq⟩ | ⟨hs, hL, heq⟩ | ⟨link, hs, hL, hf, heq⟩ |
            ⟨link, info, hs, hL, hf, hx, heq⟩ |
            ⟨link, info, hs, hL, hf, hx, ht, heq⟩ |
            ⟨link, info, hs, hL, hf, hx, ht, heq⟩ <;>
          rw [heq] at hm2 ⊢
        · exact Decision.noConfusion hm2
        · exact Decision.noConfusion hm2
        · exact Decision.noConfusion hm2
        · exact Decision.noConfusion hm2
        · exact Decision.noConfusion hm2
        · simp [assessmentInfoHash]
      | false =>
        obtain ⟨e, hE, hbr⟩ := runsFullAssessment_false_cases excl w
          searchee.name result.Guid hRF
        rcases hbr with ⟨hm, hx⟩ | ⟨hm, hx, hc⟩ | ⟨hd1, hd2⟩
        · obtain ⟨_, _, _, hentry, _⟩ := run_flip_spec fetcher fuzzy now
            result searchee excl w e hE hm hx
          rw [hentry] at hE'
          obtain rfl := Option.some.inj hE'
          exact Decision.noConfusion hm'
        · obtain ⟨_, _, _, hentry, _⟩ := run_cachedMatch_spec fetcher
            fuzzy now result searchee excl w e hE hm hx hc
          rw [hentry] at hE'
          obtain rfl := Option.some.inj hE'
          exact hinv searchee.name result.Guid e hE hm
        · obtain ⟨_, _, _, hentry, _⟩ := run_rejection_spec fetcher fuzzy
            now result searchee excl w e hE hd1 hd2
          rw [hentry] at hE'
          obtain rfl := Option.some.inj hE'
          exact absurd hm' hd2
    · obtain ⟨hf, _⟩ := run_frame fetcher fuzzy now result searchee excl
        w name guid (Or.inr hg)
      rw [hf] at hE'
      exact hinv name guid e' hE' hm'
  · obtain ⟨hf, _⟩ := run_frame fetcher fuzzy now result searchee excl w
      name guid (Or.inl hn)
    rw [hf] at hE'
    exact hinv name guid e' hE' hm'

/-- The initial world heads its own trace. -/
theorem self_mem_traceWorlds (w : World) (cs : List Call) :
    w ∈ traceWorlds w cs := by
  cases cs <;> simp [traceWorlds]

/-- Hash-provenance step: if the key holds no infoHash before an
invocation and the entry after the invocation does not have decision
`MATCH`, the key still holds no infoHash afterwards (an infoHash is only
ever written together with a `MATCH` decision; the other branches retain
the stored value). -/
theorem run_hashFree_step (fetcher : String → Option Metafile)
    (fuzzy : ℚ) (now : Nat) (result : ProwlarrResult)
    (searchee : Searchee) (excl : List String) (w : World) (n g : String)
    (hQ : EntryHashFree w n g)
    (hNM : ∀ e, dbGet (assessResultCaching fetcher fuzzy now result
      searchee excl w).world.decisions n g = some e →
      e.decision ≠ .MATCH) :
    EntryHashFree (assessResultCaching fetcher fuzzy now result searchee
      excl w).world n g := by
  by_cases hn : n = searchee.name
  · by_cases hg : g = result.Guid
    · subst hn; subst hg
      cases hRF : runsFullAssessment excl w searchee.name result.Guid
        with
      | true =>
        obtain ⟨_, _, _, hentry, _⟩ := run_reassess_spec fetcher fuzzy
          now result searchee excl w
          (assessResultHelper fetcher fuzzy result searchee excl).1
          (assessResultHelper fetcher fuzzy result searchee excl).2 rfl
          hRF
        have hne : ¬((assessResultHelper fetcher fuzzy result searchee
            excl).1.decision = .MATCH) := hNM _ hentry
        refine Or.inr ⟨_, hentry, ?_⟩
        show assessmentInfoHash
          (assessResultHelper fetcher fuzzy result searchee excl).1 = none
        simp [assessmentInfoHash, hne]
      | false =>
        obtain ⟨e, hE, hbr⟩ := runsFullAssessment_false_cases excl w
          searchee.name result.Guid hRF
        have hhash : e.infoHash = none := by
          rcases hQ with h0 | ⟨e0, hE0, hh0⟩
          · rw [hE] at h0; cases h0
          · rw [hE] at hE0
            rw [Option.some.inj hE0]
            exact hh0
        rcases hbr with ⟨hm, hx⟩ | ⟨hm, hx, hc⟩ | ⟨hd1, hd2⟩
        · obtain ⟨_, _, _, hentry, _⟩ := run_flip_spec fetcher fuzzy now
            result searchee excl w e hE hm hx
          exact Or.inr ⟨_, hentry, hhash⟩
        · obtain ⟨_, _, _, hentry, _⟩ := run_cachedMatch_spec fetcher
            fuzzy now result searchee excl w e hE hm hx hc
          exact absurd hm (hNM
            { decision := e.decision, firstSeen := e.firstSeen,
              lastSeen := now, infoHash := e.infoHash } hentry)
        · obtain ⟨_, _, _, hentry, _⟩ := run_rejection_spec fetcher fuzzy
            now result searchee excl w e hE hd1 hd2
          exact Or.inr ⟨_, hentry, hhash⟩
    · obtain ⟨hf, _⟩ := run_frame fetcher fuzzy now result searchee excl
        w n g (Or.inr hg)
      unfold EntryHashFree at hQ ⊢
      rw [hf]
      exact hQ
  · obtain ⟨hf, _⟩ := run_frame fetcher fuzzy now result searchee excl w
      n g (Or.inl hn)
    unfold EntryHashFree at hQ ⊢
    rw [hf]
    exact hQ

/-- C4 (amended): the invariant "decision = MATCH implies infoHash is
set" is preserved by every engine invocation; and an entry that starts
absent and whose decision is never `MATCH` at any point along a sequence
of invocations never carries an infoHash.  (A former MATCH entry may
still lose its infoHash when a full re-assessment replaces it with a
non-MATCH entry — see the counterexample.) -/
theorem c4_match_infohash_invariant (fetcher : String → Option Metafile)
    (fuzzy : ℚ) (now : Nat) (result : ProwlarrResult)
    (searchee : Searchee) (excl : List String) (w : World)
    (n g : String) (cs : List Call)
    (hinv : MatchImpliesInfoHash w.decisions)
    (hstart : dbGet w.decisions n g = none)
    (hnm : ∀ w' ∈ traceWorlds w cs, entryNotMatchB w' n g = true) :
    MatchImpliesInfoHash (assessResultCaching fetcher fuzzy now result
      searchee excl w).world.decisions ∧
    EntryHashFree (List.foldl stepWorld w cs) n g := by
  have conv : ∀ w', entryNotMatchB w' n g = true →
      ∀ e, dbGet w'.decisions n g = some e → e.decision ≠ .MATCH := by
    intro w' hB e hE
    unfold entryNotMatchB at hB
    rw [hE] at hB
    simpa using hB
  have htrace : ∀ (cs' : List Call) (w' : World), EntryHashFree w' n g →
      (∀ x ∈ traceWorlds w' cs', entryNotMatchB x n g = true) →
      EntryHashFree (List.foldl stepWorld w' cs') n g := by
    intro cs'
    induction cs' with
    | nil => intro w' hQ _; exact hQ
    | cons c' t ih =>
      intro w' hQ hB
      have hB1 : ∀ x ∈ traceWorlds (stepWorld w' c') t,
          entryNotMatchB x n g = true := by
        intro x hx
        refine hB x ?_
        simp only [traceWorlds, List.mem_cons]
        exact Or.inr hx
      have hQ1 : EntryHashFree (stepWorld w' c') n g := by
        refine run_hashFree_step c'.fetcher c'.fuzzy c'.now c'.result
          c'.searchee c'.excl w' n g hQ ?_
        intro e hE
        exact conv _ (hB1 _ (self_mem_traceWorlds _ t)) e hE
      exact ih (stepWorld w' c') hQ1 hB1
  exact ⟨run_preserves_matchImpliesInfoHash fetcher fuzzy now result
      searchee excl w hinv,
    htrace cs w (Or.inl hstart) hnm⟩

/-- C4 witness: after a fresh `MATCH` run on the empty world the
invariant holds, and an always-failing call sequence from the empty
world leaves the key without an infoHash. -/
theorem c4_match_infohash_invariant_witness :
    MatchImpliesInfoHash
      (assessResultCaching f0 q0 1 r0 s0 [] w0).world.decisions ∧
    EntryHashFree (List.foldl stepWorld w0 [cFail]) "SEARCHEE" "GUID0" :=
  c4_match_infohash_invariant f0 q0 1 r0 s0 [] w0 "SEARCHEE" "GUID0"
    [cFail]
    (fun name guid e hE => by
      have hnone : dbGet w0.decisions name guid = none := rfl
      rw [hnone] at hE
      exact Option.noConfusion hE)
    rfl (by decide)

/-- C10: an invocation for searchee name `searchee.name` and candidate
guid `result.Guid` leaves every other partition untouched and every
other (name, guid) cache entry unchanged. -/
theorem c10_frame_effect (fetcher : String → Option Metafile) (fuzzy : ℚ)
    (now : Nat) (result : ProwlarrResult) (searchee : Searchee)
    (excl : List String) (w : World) (n' g' : String) :
    (n' ≠ searchee.name →
      lookupA (assessResultCaching fetcher fuzzy now result searchee excl
        w).world.decisions n' = lookupA w.decisions n') ∧
    ((n' ≠ searchee.name ∨ g' ≠ result.Guid) →
      dbGet (assessResultCaching fetcher fuzzy now result searchee excl
        w).world.decisions n' g' = dbGet w.decisions n' g') := by
  constructor
  · intro hn
    exact (run_frame fetcher fuzzy now result searchee excl w n' g'
      (Or.inl hn)).2 hn
  · intro h
    exact (run_frame fetcher fuzzy now result searchee excl w n' g' h).1

/-- C10 witness: a fresh `MATCH` run on the empty world leaves an
unrelated partition and an unrelated guid unchanged. -/
theorem c10_frame_effect_witness :
    lookupA (assessResultCaching f0 q0 1 r0 s0 [] w0).world.decisions
      "OTHER" = lookupA w0.decisions "OTHER" ∧
    dbGet (assessResultCaching f0 q0 1 r0 s0 [] w0).world.decisions
      "SEARCHEE" "GUID1" = dbGet w0.decisions "SEARCHEE" "GUID1" :=
  ⟨(c10_frame_effect f0 q0 1 r0 s0 [] w0 "OTHER" "GUID1").1 (by decide),
   (c10_frame_effect f0 q0 1 r0 s0 [] w0 "SEARCHEE" "GUID1").2
     (Or.inr (by decide))⟩

/-- C5: the full assessment evaluates size check, download-link
presence, metafile fetch, infoHash-exclusion check and file-tree
comparison in that order; the decision is that of the first failing
stage, the fetcher is invoked exactly when the two earlier stages pass
(and then exactly once), and a `MATCH` carries the fetched metafile. -/
theorem c5_stage_order (fetcher : String → Option Metafile) (fuzzy : ℚ)
    (result : ProwlarrResult) (searchee : Searchee)
    (hashes : List String) :
    ((assessResultHelper fetcher fuzzy result searchee
        hashes).1.decision = .SIZE_MISMATCH ↔
      sizeDoesMatch fuzzy result.Size searchee = false) ∧
    ((assessResultHelper fetcher fuzzy result searchee
        hashes).1.decision = .NO_DOWNLOAD_LINK ↔
      sizeDoesMatch fuzzy result.Size searchee = true ∧
      result.Link = none) ∧
    ((assessResultHelper fetcher fuzzy result searchee
        hashes).1.decision = .DOWNLOAD_FAILED ↔
      sizeDoesMatch fuzzy result.Size searchee = true ∧
      ∃ link, result.Link = some link ∧ fetcher link = none) ∧
    ((assessResultHelper fetcher fuzzy result searchee
        hashes).1.decision = .INFO_HASH_ALREADY_EXISTS ↔
      ∃ link info, sizeDoesMatch fuzzy result.Size searchee = true ∧
        result.Link = some link ∧ fetcher link = some info ∧
        hashes.contains info.infoHash = true) ∧
    ((assessResultHelper fetcher fuzzy result searchee
        hashes).1.decision = .FILE_TREE_MISMATCH ↔
      ∃ link info, sizeDoesMatch fuzzy result.Size searchee = true ∧
        result.Link = some link ∧ fetcher link = some info ∧
        hashes.contains info.infoHash = false ∧
        compareFileTrees info searchee = false) ∧
    ((assessResultHelper fetcher fuzzy result searchee
        hashes).1.decision = .MATCH ↔
      ∃ link info, sizeDoesMatch fuzzy result.Size searchee = true ∧
        result.Link = some link ∧ fetcher link = some info ∧
        hashes.contains info.infoHash = false ∧
        compareFileTrees info searchee = true) ∧
    (∀ link info, result.Link = some link → fetcher link = some info →
      (assessResultHelper fetcher fuzzy result searchee
        hashes).1.decision = .MATCH →
      (assessResultHelper fetcher fuzzy result searchee hashes).1.info =
        some info) ∧
    ((assessResultHelper fetcher fuzzy result searchee hashes).2 =
      if sizeDoesMatch fuzzy result.Size searchee = true ∧
          result.Link ≠ none then 1 else 0) := by
  rcases assessResultHelper_cases fetcher fuzzy result searchee hashes
    with ⟨hs, heq⟩ | ⟨hs, hL, heq⟩ | ⟨link, hs, hL, hf, heq⟩ |
      ⟨link, info, hs, hL, hf, hx, heq⟩ |
      ⟨link, info, hs, hL, hf, hx, ht, heq⟩ |
      ⟨link, info, hs, hL, hf, hx, ht, heq⟩ <;> rw [heq]
  · simp [hs]
  · simp [hs, hL]
  · simp [hs, hL, hf]
  · simp at hx
    simp [hs, hL, hf, hx]
  · simp at hx
    simp [hs, hL, hf, hx, ht]
  · simp at hx
    simp [hs, hL, hf, hx, ht]
    intro l i hl hfi
    subst hl
    rw [hf] at hfi
    exact Option.some.inj hfi

/-- C5 witness: on the sample inputs all stages pass, yielding `MATCH`
with one fetch. -/
theorem c5_stage_order_witness :
    (assessResultHelper f0 q0 r0 s0 []).1.decision = .MATCH ∧
    (assessResultHelper f0 q0 r0 s0 []).2 =
      if sizeDoesMatch q0 r0.Size s0 = true ∧ r0.Link ≠ none then 1
      else 0 :=
  ⟨(c5_stage_order f0 q0 r0 s0 []).2.2.2.2.2.1.mpr
      ⟨"http://x", m0, by decide, by decide, by decide, by decide,
        by decide⟩,
   (c5_stage_order f0 q0 r0 s0 []).2.2.2.2.2.2.2⟩

/-- C9: once a cache entry's decision is `INFO_HASH_ALREADY_EXISTS`,
every invocation for that key returns it verbatim — with any fetcher,
any exclusion set and any time — the entry keeps that decision through
any single invocation and through any sequence of invocations; it never
returns to `MATCH`. -/
theorem c9_ihae_absorbing (n g : String) (w : World) (c : Call)
    (cs : List Call)
    (h : ∃ e, dbGet w.decisions n g = some e ∧
      e.decision = .INFO_HASH_ALREADY_EXISTS) :
    (c.searchee.name = n → c.result.Guid = g →
      (runCall c w).assessment =
        { decision := .INFO_HASH_ALREADY_EXISTS, info := none }) ∧
    (∃ e, dbGet (runCall c w).world.decisions n g = some e ∧
      e.decision = .INFO_HASH_ALREADY_EXISTS) ∧
    (∃ e, dbGet (List.foldl stepWorld w cs).decisions n g = some e ∧
      e.decision = .INFO_HASH_ALREADY_EXISTS) := by
  have step : ∀ (c' : Call) (w' : World),
      (∃ e, dbGet w'.decisions n g = some e ∧
        e.decision = .INFO_HASH_ALREADY_EXISTS) →
      ∃ e, dbGet (runCall c' w').world.decisions n g = some e ∧
        e.decision = .INFO_HASH_ALREADY_EXISTS := by
    intro c' w' hw
    obtain ⟨e, hE, hI⟩ := hw
    by_cases hkey : c'.searchee.name = n ∧ c'.result.Guid = g
    · obtain ⟨hn, hg⟩ := hkey
      have hE' : dbGet w'.decisions c'.searchee.name c'.result.Guid =
          some e := by rw [hn, hg]; exact hE
      obtain ⟨_, _, _, hent, _⟩ := run_rejection_spec c'.fetcher c'.fuzzy
        c'.now c'.result c'.searchee c'.excl w' e hE'
        (by rw [hI]; exact fun hc => Decision.noConfusion hc)
        (by rw [hI]; exact fun hc => Decision.noConfusion hc)
      rw [hn, hg] at hent
      exact ⟨_, hent, hI⟩
    · have h2 : n ≠ c'.searchee.name ∨ g ≠ c'.result.Guid := by
        rcases not_and_or.mp hkey with h' | h'
        · exact Or.inl fun he => h' he.symm
        · exact Or.inr fun he => h' he.symm
      obtain ⟨hf, _⟩ := run_frame c'.fetcher c'.fuzzy c'.now c'.result
        c'.searchee c'.excl w' n g h2
      refine ⟨e, ?_, hI⟩
      rw [show runCall c' w' = assessResultCaching c'.fetcher c'.fuzzy
        c'.now c'.result c'.searchee c'.excl w' from rfl, hf]
      exact hE
  have fold : ∀ (cs' : List Call) (w' : World),
      (∃ e, dbGet w'.decisions n g = some e ∧
        e.decision = .INFO_HASH_ALREADY_EXISTS) →
      ∃ e, dbGet (List.foldl stepWorld w' cs').decisions n g = some e ∧
        e.decision = .INFO_HASH_ALREADY_EXISTS := by
    intro cs'
    induction cs' with
    | nil => intro w' hw; exact hw
    | cons c' t ih =>
      intro w' hw
      exact ih (stepWorld w' c') (step c' w' hw)
  refine ⟨?_, step c w h, fold cs w h⟩
  intro hn hg
  obtain ⟨e, hE, hI⟩ := h
  have hE' : dbGet w.decisions c.searchee.name c.result.Guid = some e :=
    by rw [hn, hg]; exact hE
  obtain ⟨ha, _, _, _, _⟩ := run_rejection_spec c.fetcher c.fuzzy c.now
    c.result c.searchee c.excl w e hE'
    (by rw [hI]; exact fun hc => Decision.noConfusion hc)
    (by rw [hI]; exact fun hc => Decision.noConfusion hc)
  rw [show runCall c w = assessResultCaching c.fetcher c.fuzzy c.now
    c.result c.searchee c.excl w from rfl, ha, hI]

/-- C9 witness: on the sample world holding an
`INFO_HASH_ALREADY_EXISTS` entry, the sample call (with an empty
exclusion set) returns it verbatim and it persists. -/
theorem c9_ihae_absorbing_witness :
    (runCall c0 wIHAE).assessment =
      { decision := .INFO_HASH_ALREADY_EXISTS, info := none } ∧
    ∃ e, dbGet (List.foldl stepWorld wIHAE [c0]).decisions "SEARCHEE"
        "GUID0" = some e ∧ e.decision = .INFO_HASH_ALREADY_EXISTS :=
  ⟨(c9_ihae_absorbing "SEARCHEE" "GUID0" wIHAE c0 [c0]
      ⟨{ decision := .INFO_HASH_ALREADY_EXISTS, firstSeen := 5,
         lastSeen := 5, infoHash := some "HASH0" }, by decide, rfl⟩).1
      rfl rfl,
   (c9_ihae_absorbing "SEARCHEE" "GUID0" wIHAE c0 [c0]
      ⟨{ decision := .INFO_HASH_ALREADY_EXISTS, firstSeen := 5,
         lastSeen := 5, infoHash := some "HASH0" }, by decide,
        rfl⟩).2.2⟩

/-- C6: invoking the engine twice in succession with unchanged inputs,
exclusion set and external stores yields the same decision both times,
and the second invocation performs no fetch when the first decision was
a terminal rejection other than `DOWNLOAD_FAILED`, or a `MATCH` whose
bytes are still in the torrent-file cache. -/
theorem c6_idempotent (fetcher : String → Option Metafile) (fuzzy : ℚ)
    (now1 now2 : Nat) (result : ProwlarrResult) (searchee : Searchee)
    (excl : List String) (w : World) :
    (assessResultCaching fetcher fuzzy now2 result searchee excl
        (assessResultCaching fetcher fuzzy now1 result searchee excl
          w).world).assessment.decision =
      (assessResultCaching fetcher fuzzy now1 result searchee excl
        w).assessment.decision ∧
    (((assessResultCaching fetcher fuzzy now1 result searchee excl
          w).assessment.decision ≠ .DOWNLOAD_FAILED ∧
      (assessResultCaching fetcher fuzzy now1 result searchee excl
          w).assessment.decision ≠ .MATCH) →
      (assessResultCaching fetcher fuzzy now2 result searchee excl
        (assessResultCaching fetcher fuzzy now1 result searchee excl
          w).world).fetchCount = 0) ∧
    (((assessResultCaching fetcher fuzzy now1 result searchee excl
          w).assessment.decision = .MATCH ∧
      ∃ e, dbGet (assessResultCaching fetcher fuzzy now1 result searchee
          excl w).world.decisions searchee.name result.Guid = some e ∧
        existsInTorrentCache (assessResultCaching fetcher fuzzy now1
          result searchee excl w).world.torrentCache e.infoHash = true) →
      (assessResultCaching fetcher fuzzy now2 result searchee excl
        (assessResultCaching fetcher fuzzy now1 result searchee excl
          w).world).fetchCount = 0) := by
  cases hRF : runsFullAssessment excl w searchee.name result.Guid with
  | true =>
    obtain ⟨ha1, hfc1, hre1, hentry1, htc1⟩ := run_reassess_spec fetcher
      fuzzy now1 result searchee excl w
      (assessResultHelper fetcher fuzzy result searchee excl).1
      (assessResultHelper fetcher fuzzy result searchee excl).2 rfl hRF
    rcases assessResultHelper_cases fetcher fuzzy result searchee excl
      with ⟨hs, heq⟩ | ⟨hs, hL, heq⟩ | ⟨link, hs, hL, hf, heq⟩ |
        ⟨link, info, hs, hL, hf, hx, heq⟩ |
        ⟨link, info, hs, hL, hf, hx, ht, heq⟩ |
        ⟨link, info, hs, hL, hf, hx, ht, heq⟩
    · simp only [heq, assessmentInfoHash] at ha1 hentry1
      simp at hentry1
      obtain ⟨ha2, hfc2, _, _, _⟩ := run_rejection_spec fetcher fuzzy
        now2 result searchee excl
        (assessResultCaching fetcher fuzzy now1 result searchee excl
          w).world
        { decision := .SIZE_MISMATCH, firstSeen := now1,
          lastSeen := now1, infoHash := none } hentry1
        (fun hc => Decision.noConfusion hc)
        (fun hc => Decision.noConfusion hc)
      refine ⟨by rw [ha2, ha1], fun _ => hfc2, fun hmm => ?_⟩
      exfalso; rw [ha1] at hmm; exact Decision.noConfusion hmm.1
    · simp only [heq, assessmentInfoHash] at ha1 hentry1
      simp at hentry1
      obtain ⟨ha2, hfc2, _, _, _⟩ := run_rejection_spec fetcher fuzzy
        now2 result searchee excl
        (assessResultCaching fetcher fuzzy now1 result searchee excl
          w).world
        { decision := .NO_DOWNLOAD_LINK, firstSeen := now1,
          lastSeen := now1, infoHash := none } hentry1
        (fun hc => Decision.noConfusion hc)
        (fun hc => Decision.noConfusion hc)
      refine ⟨by rw [ha2, ha1], fun _ => hfc2, fun hmm => ?_⟩
      exfalso; rw [ha1] at hmm; exact Decision.noConfusion hmm.1
    · simp only [heq, assessmentInfoHash] at ha1 hentry1
      simp at hentry1
      have hRF2 : runsFullAssessment excl
          (assessResultCaching fetcher fuzzy now1 result searchee excl
            w).world searchee.name result.Guid = true := by
        unfold runsFullAssessment
        rw [hentry1]
        simp
      obtain ⟨ha2, hfc2, _, _, _⟩ := run_reassess_spec fetcher fuzzy now2
        result searchee excl
        (assessResultCaching fetcher fuzzy now1 result searchee excl
          w).world
        (assessResultHelper fetcher fuzzy result searchee excl).1
        (assessResultHelper fetcher fuzzy result searchee excl).2 rfl
        hRF2
      refine ⟨?_, fun hnd => ?_, fun hmm => ?_⟩
      · rw [ha2, ha1, heq]
      · exfalso; rw [ha1] at hnd; exact hnd.1 rfl
      · exfalso; rw [ha1] at hmm; exact Decision.noConfusion hmm.1
    · simp only [heq, assessmentInfoHash] at ha1 hentry1
      simp at hentry1
      obtain ⟨ha2, hfc2, _, _, _⟩ := run_rejection_spec fetcher fuzzy
        now2 result searchee excl
        (assessResultCaching fetcher fuzzy now1 result searchee excl
          w).world
        { decision := .INFO_HASH_ALREADY_EXISTS, firstSeen := now1,
          lastSeen := now1, infoHash := none } hentry1
        (fun hc => Decision.noConfusion hc)
        (fun hc => Decision.noConfusion hc)
      refine ⟨by rw [ha2, ha1], fun _ => hfc2, fun hmm => ?_⟩
      exfalso; rw [ha1] at hmm; exact Decision.noConfusion hmm.1
    · simp only [heq, assessmentInfoHash] at ha1 hentry1
      simp at hentry1
      obtain ⟨ha2, hfc2, _, _, _⟩ := run_rejection_spec fetcher fuzzy
        now2 result searchee excl
        (assessResultCaching fetcher fuzzy now1 result searchee excl
          w).world
        { decision := .FILE_TREE_MISMATCH, firstSeen := now1,
          lastSeen := now1, infoHash := none } hentry1
        (fun hc => Decision.noConfusion hc)
        (fun hc => Decision.noConfusion hc)
      refine ⟨by rw [ha2, ha1], fun _ => hfc2, fun hmm => ?_⟩
      exfalso; rw [ha1] at hmm; exact Decision.noConfusion hmm.1
    · simp only [heq, assessmentInfoHash] at ha1 hentry1
      simp at hentry1
      simp only [heq, tcAfter] at htc1
      simp at htc1
      have hx2 : includesOpt excl (some info.infoHash) = false := by
        simpa [includesOpt] using hx
      have hc2 : existsInTorrentCache
          (assessResultCaching fetcher fuzzy now1 result searchee excl
            w).world.torrentCache (some info.infoHash) = true := by
        rw [htc1]
        simp [existsInTorrentCache, cacheTorrentFile,
          lookupA_insertA_self]
      obtain ⟨ha2, hfc2, _, _, _⟩ := run_cachedMatch_spec fetcher fuzzy
        now2 result searchee excl
        (assessResultCaching fetcher fuzzy now1 result searchee excl
          w).world
        { decision := .MATCH, firstSeen := now1, lastSeen := now1,
          infoHash := some info.infoHash } hentry1 rfl hx2 hc2
      refine ⟨by rw [ha2, ha1], fun hnd => ?_, fun _ => hfc2⟩
      exfalso; rw [ha1] at hnd; exact hnd.2 rfl
  | false =>
    obtain ⟨e, hE, hbr⟩ := runsFullAssessment_false_cases excl w
      searchee.name result.Guid hRF
    rcases hbr with ⟨hm, hx⟩ | ⟨hm, hx, hc⟩ | ⟨hd1, hd2⟩
    · obtain ⟨ha1, hfc1, _, hentry1, htc1⟩ := run_flip_spec fetcher fuzzy
        now1 result searchee excl w e hE hm hx
      obtain ⟨ha2, hfc2, _, _, _⟩ := run_rejection_spec fetcher fuzzy
        now2 result searchee excl
        (assessResultCaching fetcher fuzzy now1 result searchee excl
          w).world
        { decision := .INFO_HASH_ALREADY_EXISTS, firstSeen := e.firstSeen,
          lastSeen := now1, infoHash := e.infoHash } hentry1
        (fun hc => Decision.noConfusion hc)
        (fun hc => Decision.noConfusion hc)
      refine ⟨by rw [ha2, ha1], fun _ => hfc2, fun hmm => ?_⟩
      exfalso; rw [ha1] at hmm; exact Decision.noConfusion hmm.1
    · obtain ⟨ha1, hfc1, _, hentry1, htc1⟩ := run_cachedMatch_spec
        fetcher fuzzy now1 result searchee excl w e hE hm hx hc
      have hc2 : existsInTorrentCache
          (assessResultCaching fetcher fuzzy now1 result searchee excl
            w).world.torrentCache e.infoHash = true := by
        rw [htc1]; exact hc
      obtain ⟨ha2, hfc2, _, _, _⟩ := run_cachedMatch_spec fetcher fuzzy
        now2 result searchee excl
        (assessResultCaching fetcher fuzzy now1 result searchee excl
          w).world
        { decision := e.decision, firstSeen := e.firstSeen,
          lastSeen := now1, infoHash := e.infoHash } hentry1 hm hx hc2
      refine ⟨by rw [ha2, ha1], fun hnd => ?_, fun _ => hfc2⟩
      exfalso; rw [ha1] at hnd; exact hnd.2 rfl
    · obtain ⟨ha1, hfc1, _, hentry1, _⟩ := run_rejection_spec fetcher
        fuzzy now1 result searchee excl w e hE hd1 hd2
      obtain ⟨ha2, hfc2, _, _, _⟩ := run_rejection_spec fetcher fuzzy
        now2 result searchee excl
        (assessResultCaching fetcher fuzzy now1 result searchee excl
          w).world
        { decision := e.decision, firstSeen := e.firstSeen,
          lastSeen := now1, infoHash := e.infoHash } hentry1 hd1 hd2
      refine ⟨by rw [ha2, ha1], fun _ => hfc2, fun hmm => ?_⟩
      exfalso; rw [ha1] at hmm; exact hd2 hmm.1

/-- C6 witness: two immediate runs on the sample inputs agree (both
`MATCH`) and the second performs no fetch. -/
theorem c6_idempotent_witness :
    (assessResultCaching f0 q0 2 r0 s0 []
        (assessResultCaching f0 q0 1 r0 s0 []
          w0).world).assessment.decision =
      (assessResultCaching f0 q0 1 r0 s0 [] w0).assessment.decision ∧
    (assessResultCaching f0 q0 2 r0 s0 []
        (assessResultCaching f0 q0 1 r0 s0 [] w0).world).fetchCount = 0 :=
  ⟨(c6_idempotent f0 q0 1 2 r0 s0 [] w0).1,
   (c6_idempotent f0 q0 1 2 r0 s0 [] w0).2.2
     ⟨by decide,
      ⟨{ decision := .MATCH, firstSeen := 1, lastSeen := 1,
         infoHash := some "HASH0" }, by decide, by decide⟩⟩⟩
